import Mathlib

/-!
# Email verifier API test scripts: a verification development

Shallow embedding of the three scripts of the repository:

* `test-api.js`: the browser page; `handleStreamingResponse`, its inner
  `processStream` read loop and `addStreamItem`;
* `test.js` and `node-test.js`: the five API helper functions and `runTests`.

JavaScript strings are sequences of UTF-16 code units.  The platform pieces the
scripts call (`fetch`, the stream reader, `JSON.parse`) are parameters of the
definitions; a model of `JSON.parse` over the JSON grammar is given for the
concrete evaluations.
-/

set_option autoImplicit false

namespace EmailVerifier

/-! ## JavaScript strings and values -/

/-- A JavaScript string: its sequence of UTF-16 code units. -/
abbrev JSString := List Nat

/-- The UTF-16 code units of one Unicode scalar value. -/
def utf16 (c : Char) : List Nat :=
  if c.toNat < 65536 then [c.toNat]
  else [55296 + (c.toNat - 65536) / 1024, 56320 + (c.toNat - 65536) % 1024]

/-- The JavaScript string denoted by a string literal. -/
def js (s : String) : JSString := s.toList.flatMap utf16

/-- A number read from JSON text, kept as the exact decimal
`(-1)^negative * mantissa * 10^exp10` of its literal; the engine stores the
IEEE double nearest to it. -/
structure JSNumber where
  negative : Bool
  mantissa : Nat
  exp10 : Int
deriving DecidableEq, Repr

/-- The stored double is `0` or `-0`: the decimal is zero or rounds to zero
(its magnitude is at most `2^-1075`, half the least subnormal). -/
def JSNumber.isZero (n : JSNumber) : Bool :=
  n.mantissa == 0 || (n.exp10 < 0 && decide (n.mantissa * 2 ^ 1075 ≤ 10 ^ (-n.exp10).toNat))

/-- The values `JSON.parse` produces.  An object keeps its members in the order
of the text, duplicates included; a later member overrides an earlier one. -/
inductive JSON where
  | null
  | bool (b : Bool)
  | num (n : JSNumber)
  | str (s : JSString)
  | arr (xs : List JSON)
  | obj (members : List (JSString × JSON))
deriving Repr

/-- A JavaScript value as the scripts see it; `none` is `undefined`. -/
abbrev JSValue := Option JSON

/-- Truthiness (`ToBoolean`). -/
def truthy : JSValue → Bool
  | none => false
  | some .null => false
  | some (.bool b) => b
  | some (.num n) => !n.isZero
  | some (.str s) => !s.isEmpty
  | some (.arr _) => true
  | some (.obj _) => true

/-- Value of the last member named `key`, if any. -/
def lookupMember (key : JSString) : List (JSString × JSON) → JSValue
  | [] => none
  | (k, v) :: rest =>
    match lookupMember key rest with
    | some w => some w
    | none => if k = key then some v else none

/-- Property read `json.key` on a non-null value, for a `key` that is neither
an array index nor the name of a built-in property (`status`, `email`,
`batches`): an own member of an object, `undefined` otherwise. -/
def JSON.getField (key : JSString) : JSON → JSValue
  | .obj members => lookupMember key members
  | _ => none

/-- One piece of a string computed by `ToString`: a code unit, or the decimal
rendering `Number::toString` gives a number (never empty, free of white space). -/
inductive StrPart where
  | unit (u : Nat)
  | number (n : JSNumber)
deriving DecidableEq, Repr

/-- A string computed by `ToString`, number renderings kept symbolic. -/
abbrev SymString := List StrPart

/-- A known string as a computed string. -/
def sym (s : JSString) : SymString := s.map StrPart.unit

mutual
/-- The result of `ToString` on a JSON value; `none` when it throws a TypeError
(an object whose own `toString` member hides `Object.prototype.toString`). -/
def JSON.toStr : JSON → Option SymString
  | .null => some (sym (js "null"))
  | .bool true => some (sym (js "true"))
  | .bool false => some (sym (js "false"))
  | .num n => some [StrPart.number n]
  | .str s => some (sym s)
  | .arr xs => JSON.joinStr xs
  | .obj members =>
    match lookupMember (js "toString") members with
    | some _ => none
    | none => some (sym (js "[object Object]"))
/-- The text of `Array.prototype.join` with separator `,`: `null` elements give
the empty string. -/
def JSON.joinStr : List JSON → Option SymString
  | [] => some []
  | [x] => JSON.elemStr x
  | x :: y :: rest =>
    match JSON.elemStr x, JSON.joinStr (y :: rest) with
    | some a, some b => some (a ++ sym (js ",") ++ b)
    | _, _ => none
/-- The text of one array element inside `join`. -/
def JSON.elemStr : JSON → Option SymString
  | .null => some []
  | .bool true => some (sym (js "true"))
  | .bool false => some (sym (js "false"))
  | .num n => some [StrPart.number n]
  | .str s => some (sym s)
  | .arr xs => JSON.joinStr xs
  | .obj members =>
    match lookupMember (js "toString") members with
    | some _ => none
    | none => some (sym (js "[object Object]"))
end

/-- White space and line terminators, as `String.prototype.trim` strips them. -/
def isWhiteSpace (u : Nat) : Bool :=
  u == 9 || u == 10 || u == 11 || u == 12 || u == 13 || u == 32 || u == 160 ||
  u == 5760 || (8192 ≤ u && u ≤ 8202) || u == 8232 || u == 8233 || u == 8239 ||
  u == 8287 || u == 12288 || u == 65279

/-- The method `String.prototype.trim`. -/
def trim (s : JSString) : JSString :=
  ((s.dropWhile isWhiteSpace).reverse.dropWhile isWhiteSpace).reverse

/-- The line feed, the separator of `buffer.split('\n')`. -/
def newline : Nat := 10

/-- The pieces of `s.split('\n')`: one more piece than there are line feeds. -/
def split : JSString → List JSString
  | [] => [[]]
  | u :: rest =>
    if u = newline then [] :: split rest
    else
      match split rest with
      | [] => [[u]]
      | piece :: pieces => (u :: piece) :: pieces

/-! ## Errors, computed text, console -/

/-- A thrown value.  `error m` is `new Error(m)`; the others are the errors the
engine raises, whose message wording belongs to the engine (`abortError` is the
DOMException with which the reads of an aborted transfer are rejected). -/
inductive Thrown where
  | error (message : JSString)
  | syntaxError
  | typeError
  | domSyntaxError
  | invalidCharacterError
  | abortError
deriving DecidableEq, Repr

/-- One piece of a displayed text: a code unit, or the `message` of an engine
error. -/
inductive TextPart where
  | unit (u : Nat)
  | message (e : Thrown)
deriving DecidableEq, Repr

/-- A displayed text (`textContent`). -/
abbrev Text := List TextPart

/-- A known string as displayed text. -/
def text (s : JSString) : Text := s.map TextPart.unit

/-- The text of `error.message`. -/
def Thrown.messageText : Thrown → Text
  | .error m => text m
  | e => [TextPart.message e]

/-- Decimal digits of a non-negative integer, as `ToString` renders it. -/
def decimal (n : Nat) : JSString := (Nat.toDigits 10 n).map Char.toNat

/-- One argument of a `console` call. -/
inductive LogArg where
  | text (s : SymString)
  | value (v : JSValue)
  | thrown (e : Thrown)
deriving Repr

/-- One `console.log` (`isError = false`) or `console.error` call. -/
structure ConsoleEntry where
  isError : Bool
  args : List LogArg
deriving Repr

/-! ## test-api.js: the streaming handler -/

/-- One `div.stream-item` appended to the stream container: its class list and
the value whose `JSON.stringify(·, null, 2)` text fills its `pre`. -/
structure StreamItem where
  classList : List SymString
  pre : JSON
deriving Repr

/-- The part of the page `handleStreamingResponse` writes: the text of the status
`div`, the children of `.stream-container` and the console.  `calls` and
`readerObtained` are ghost fields: the arguments of the `addStreamItem`
invocations in order, and whether `response.body.getReader()` was evaluated. -/
structure Page where
  status : Text
  items : List StreamItem
  console : List ConsoleEntry
  calls : List JSON
  readerObtained : Bool
deriving Repr

/-- ASCII white space, which `DOMTokenList.add` rejects inside a token. -/
def isAsciiWhiteSpace : StrPart → Bool
  | .unit u => u == 9 || u == 10 || u == 12 || u == 13 || u == 32
  | .number _ => false

/-- The method `classList.add(token)`: SyntaxError for the empty token,
InvalidCharacterError for white space inside it; a token already present is not
repeated. -/
def classListAdd (token : SymString) (classList : List SymString) :
    Except Thrown (List SymString) :=
  if token.isEmpty then .error .domSyntaxError
  else if token.any isAsciiWhiteSpace then .error .invalidCharacterError
  else if classList.contains token then .ok classList
  else .ok (classList ++ [token])

/-- The comparison `v === s` for a string literal `s`. -/
def strictEqualsString (v : JSValue) (s : JSString) : Bool :=
  match v with
  | some (.str t) => t == s
  | _ => false

/-- Function `addStreamItem(json)` of test-api.js.  The result is the thrown
error when the body throws; nothing is appended in that case. -/
def addStreamItem (json : JSON) (page : Page) : Except Thrown Unit × Page :=
  let page := { page with calls := page.calls ++ [json] }
  let classList := [sym (js "stream-item")]
  match json with
  | .null => (.error .typeError, page)
  | json =>
    let status := json.getField (js "status")
    let added : Except Thrown (List SymString) :=
      if strictEqualsString status (js "started") then
        classListAdd (sym (js "stream-start")) classList
      else if strictEqualsString status (js "completed") then
        classListAdd (sym (js "stream-end")) classList
      else if truthy (json.getField (js "email")) then
        if truthy status then
          match status.bind JSON.toStr with
          | some token => classListAdd token classList
          | none => .error .typeError
        else classListAdd (sym (js "stream-result")) classList
      else .ok classList
    match added with
    | .error e => (.error e, page)
    | .ok classList =>
      (.ok (), { page with items := page.items ++ [{ classList := classList, pre := json }] })

/-- The object `{ error: "Invalid JSON: " + line }` shown for a line that failed. -/
def invalidJsonItem (line : JSString) : JSON :=
  .obj [(js "error", .str (js "Invalid JSON: " ++ line))]

/-- The loop `for (const line of lines)` of `processStream`, with its
`try`/`catch` around `JSON.parse` and `addStreamItem`.  An error leaves the
loop only when the `catch` block itself throws. -/
def processLines (parse : JSString → Except Thrown JSON) :
    List JSString → Page → Except Thrown Unit × Page
  | [], page => (.ok (), page)
  | line :: rest, page =>
    if (trim line).isEmpty then processLines parse rest page
    else
      let tried : Except Thrown Unit × Page :=
        match parse line with
        | .ok json => addStreamItem json page
        | .error e => (.error e, page)
      match tried with
      | (.ok _, page) => processLines parse rest page
      | (.error e, page) =>
        let page := { page with console := page.console ++
          [{ isError := true,
             args := [.text (sym (js "Error parsing JSON:")), .thrown e, .text (sym line)] }] }
        match addStreamItem (invalidJsonItem line) page with
        | (.ok _, page) => processLines parse rest page
        | (.error e, page) => (.error e, page)

/-- What one `reader.read()` settles to: a chunk (given as the text
`decoder.decode(value, { stream: true })` returns for it), `done`, or a
rejection. -/
inductive ReadResult where
  | chunk (decoded : JSString)
  | done
  | failed (error : Thrown)
deriving Repr

/-- State of the read loop: the `buffer` variable and the page.  `extracted` is
a ghost field: every element of `lines` (after the `pop`) so far, in order. -/
structure StreamState where
  buffer : JSString
  extracted : List JSString
  page : Page
deriving Repr

/-- Function `processStream` inside `handleStreamingResponse`, run over the
results of the successive `reader.read()` calls.  When the results are used up
the stream is still open and the state reached so far is returned. -/
def processStream (parse : JSString → Except Thrown JSON) :
    List ReadResult → StreamState → StreamState
  | [], st => st
  | .done :: _, st =>
    { st with page := { st.page with status := st.page.status ++ text (js " - Stream completed") } }
  | .failed error :: _, st =>
    { st with page := { st.page with status := text (js "Error: ") ++ error.messageText } }
  | .chunk decoded :: rest, st =>
    let buffer := st.buffer ++ decoded
    let lines := split buffer
    let buffer := lines.getLastD []
    let lines := lines.dropLast
    match processLines parse lines st.page with
    | (.ok _, page) =>
      processStream parse rest { buffer := buffer, extracted := st.extracted ++ lines, page := page }
    | (.error error, page) =>
      { buffer := buffer, extracted := st.extracted ++ lines,
        page := { page with status := text (js "Error: ") ++ error.messageText } }

/-- A request body: a given text, or the text `JSON.stringify(value)`. -/
inductive BodyText where
  | text (s : JSString)
  | stringify (value : JSON)
deriving Repr

/-- The `options` argument of `fetch`: the members the scripts set.  A caller of
`handleStreamingResponse` may add an abort `signal` to them; aborting it makes
the platform reject the pending `fetch` or `read`, which the model carries in
the result of `fetch` and in the results of the reads. -/
structure RequestInit where
  method : JSString
  headers : List (JSString × JSString)
  body : Option BodyText
deriving Repr

/-- A response as the scripts use it: status line, body stream (`none` for a
null body; for node-fetch the `data`, `end` and `error` events of the body in
order) and what `response.json()` settles to. -/
structure Response where
  status : Nat
  statusText : JSString
  body : Option (List ReadResult)
  json : Except Thrown JSON
deriving Repr

/-- The platform function `fetch(url, options)`: what its promise settles to. -/
abbrev Fetch := SymString → RequestInit → Except Thrown Response

/-- The attribute `response.ok`: the status is in the range 200 to 299. -/
def Response.ok (r : Response) : Bool := decide (200 ≤ r.status) && decide (r.status ≤ 299)

/-- The first `.then` callback of `handleStreamingResponse`. -/
def onResponse (parse : JSString → Except Thrown JSON) (response : Response) (page : Page) :
    Except Thrown Unit × Page :=
  if !response.ok then
    (.error (.error (js "HTTP error! Status: " ++ decimal response.status)), page)
  else
    let connected : JSString :=
      js "Status: " ++ decimal response.status ++ js " " ++ response.statusText ++
        js " - Stream connected"
    let page := { page with status := text connected }
    match response.body with
    | none => (.error .typeError, page)
    | some reads =>
      let page := { page with readerObtained := true }
      (.ok (), (processStream parse reads { buffer := [], extracted := [], page := page }).page)

/-- Function `handleStreamingResponse(url, options)` of test-api.js: the
response area it leaves once the promise chain has settled. -/
def handleStreamingResponse (parse : JSString → Except Thrown JSON) (fetch : Fetch)
    (url : JSString) (options : RequestInit) : Page :=
  let page : Page :=
    { status := text (js "Status: Connecting..."), items := [], console := [], calls := [],
      readerObtained := false }
  let settled : Except Thrown Unit × Page :=
    match fetch (sym url) options with
    | .ok response => onResponse parse response page
    | .error e => (.error e, page)
  match settled with
  | (.ok _, page) => page
  | (.error error, page) => { page with status := text (js "Error: ") ++ error.messageText }

/-! ## A model of `JSON.parse` -/

/-- Drops the JSON white space (tab, line feed, carriage return, space) in front. -/
def skipWs : List Nat → List Nat
  | [] => []
  | u :: rest => if u = 9 ∨ u = 10 ∨ u = 13 ∨ u = 32 then skipWs rest else u :: rest

/-- Value of a hexadecimal digit. -/
def hexValue (u : Nat) : Option Nat :=
  if 48 ≤ u ∧ u ≤ 57 then some (u - 48)
  else if 97 ≤ u ∧ u ≤ 102 then some (u - 87)
  else if 65 ≤ u ∧ u ≤ 70 then some (u - 55)
  else none

/-- The code unit written by the four hexadecimal digits of a `\u` escape. -/
def hex4 (a b c d : Nat) : Option Nat :=
  match hexValue a, hexValue b, hexValue c, hexValue d with
  | some x, some y, some z, some w => some (((x * 16 + y) * 16 + z) * 16 + w)
  | _, _, _, _ => none

/-- The characters of a JSON string after its opening quote, up to the closing
quote: the string value and the rest of the input. -/
def parseStringBody : List Nat → JSString → Option (JSString × List Nat)
  | [], _ => none
  | u :: rest, acc =>
    if u = 34 then some (acc, rest)
    else if u = 92 then
      match rest with
      | [] => none
      | e :: rest1 =>
        if e = 34 ∨ e = 92 ∨ e = 47 then parseStringBody rest1 (acc ++ [e])
        else if e = 98 then parseStringBody rest1 (acc ++ [8])
        else if e = 102 then parseStringBody rest1 (acc ++ [12])
        else if e = 110 then parseStringBody rest1 (acc ++ [10])
        else if e = 114 then parseStringBody rest1 (acc ++ [13])
        else if e = 116 then parseStringBody rest1 (acc ++ [9])
        else if e = 117 then
          match rest1 with
          | a :: b :: c :: d :: rest2 =>
            match hex4 a b c d with
            | some unit => parseStringBody rest2 (acc ++ [unit])
            | none => none
          | _ => none
        else none
    else if u < 32 then none
    else parseStringBody rest (acc ++ [u])

/-- The leading decimal digits of the input and what follows them. -/
def takeDigits : List Nat → List Nat × List Nat
  | [] => ([], [])
  | u :: rest =>
    if 48 ≤ u ∧ u ≤ 57 then ((takeDigits rest).1.cons u, (takeDigits rest).2)
    else ([], u :: rest)

/-- The number written by a sequence of decimal digits. -/
def digitsValue (digits : List Nat) : Nat :=
  digits.foldl (fun acc u => acc * 10 + (u - 48)) 0

/-- The exponent part `e`, `E` with optional sign and digits, if present. -/
def parseExponent (input : List Nat) : Option (Int × List Nat) :=
  match input with
  | e :: rest =>
    if e = 101 ∨ e = 69 then
      let (negative, rest1) :=
        match rest with
        | s :: r => if s = 45 then (true, r) else if s = 43 then (false, r) else (false, rest)
        | [] => (false, rest)
      match takeDigits rest1 with
      | ([], _) => none
      | (digits, rest2) =>
        some (if negative then -(digitsValue digits : Int) else (digitsValue digits : Int), rest2)
    else some (0, input)
  | [] => some (0, input)

/-- The fraction part `.` and digits, if present: the digits and the rest. -/
def parseFraction (input : List Nat) : Option (List Nat × List Nat) :=
  match input with
  | dot :: rest =>
    if dot = 46 then
      match takeDigits rest with
      | ([], _) => none
      | (digits, rest1) => some (digits, rest1)
    else some ([], input)
  | [] => some ([], input)

/-- A JSON number after its optional minus sign. -/
def parseNumber (negative : Bool) (input : List Nat) : Option (JSON × List Nat) :=
  let integer : Option (List Nat × List Nat) :=
    match input with
    | u :: rest =>
      if u = 48 then some ([48], rest)
      else if 49 ≤ u ∧ u ≤ 57 then some (takeDigits input)
      else none
    | [] => none
  match integer with
  | none => none
  | some (whole, rest) =>
    match parseFraction rest with
    | none => none
    | some (fraction, rest1) =>
      match parseExponent rest1 with
      | none => none
      | some (exponent, rest2) =>
        some (.num { negative := negative, mantissa := digitsValue (whole ++ fraction),
                     exp10 := exponent - fraction.length }, rest2)

mutual
/-- A JSON value with the white space in front of it; `fuel` bounds the
nesting and number of elements still to be read. -/
def parseValue : Nat → List Nat → Option (JSON × List Nat)
  | 0, _ => none
  | fuel + 1, input =>
    match skipWs input with
    | [] => none
    | u :: rest =>
      if u = 123 then
        match skipWs rest with
        | c :: rest1 => if c = 125 then some (.obj [], rest1) else parseMembers fuel rest []
        | [] => none
      else if u = 91 then
        match skipWs rest with
        | c :: rest1 => if c = 93 then some (.arr [], rest1) else parseElements fuel rest []
        | [] => none
      else if u = 34 then
        match parseStringBody rest [] with
        | some (s, rest1) => some (.str s, rest1)
        | none => none
      else if u = 45 then parseNumber true rest
      else if 48 ≤ u ∧ u ≤ 57 then parseNumber false (u :: rest)
      else if (u :: rest).take 4 = [116, 114, 117, 101] then some (.bool true, rest.drop 3)
      else if (u :: rest).take 5 = [102, 97, 108, 115, 101] then some (.bool false, rest.drop 4)
      else if (u :: rest).take 4 = [110, 117, 108, 108] then some (.null, rest.drop 3)
      else none
/-- The elements of an array after `[`, up to and including `]`. -/
def parseElements : Nat → List Nat → List JSON → Option (JSON × List Nat)
  | 0, _, _ => none
  | fuel + 1, input, acc =>
    match parseValue fuel input with
    | none => none
    | some (v, rest) =>
      match skipWs rest with
      | c :: rest1 =>
        if c = 44 then parseElements fuel rest1 (acc ++ [v])
        else if c = 93 then some (.arr (acc ++ [v]), rest1)
        else none
      | [] => none
/-- The members of an object after `{`, up to and including `}`. -/
def parseMembers : Nat → List Nat → List (JSString × JSON) → Option (JSON × List Nat)
  | 0, _, _ => none
  | fuel + 1, input, acc =>
    match skipWs input with
    | q :: rest =>
      if q = 34 then
        match parseStringBody rest [] with
        | none => none
        | some (key, rest1) =>
          match skipWs rest1 with
          | colon :: rest2 =>
            if colon = 58 then
              match parseValue fuel rest2 with
              | none => none
              | some (v, rest3) =>
                match skipWs rest3 with
                | c :: rest4 =>
                  if c = 44 then parseMembers fuel rest4 (acc ++ [(key, v)])
                  else if c = 125 then some (.obj (acc ++ [(key, v)]), rest4)
                  else none
                | [] => none
            else none
          | [] => none
      else none
    | [] => none
end

/-- The function `JSON.parse(text)`: the value of a text that is one JSON value
surrounded by white space, a SyntaxError for any other text. -/
def JSON.parse (source : JSString) : Except Thrown JSON :=
  match parseValue (2 * source.length + 2) source with
  | some (v, rest) => if (skipWs rest).isEmpty then .ok v else .error .syntaxError
  | none => .error .syntaxError

/-! ## test.js and node-test.js: effects of the API functions -/

/-- One observable step of an API function. -/
inductive Effect where
  | console (entry : ConsoleEntry)
  | fetch (url : SymString) (options : RequestInit)
  | json
  | getReader
  | read
  | on (event : JSString)
deriving Repr

/-- How the promise of an `async` function ends: fulfilled with a value,
rejected with an error, or never settled. -/
inductive Outcome (α : Type) where
  | returned (value : α)
  | thrown (error : Thrown)
  | pending
deriving Repr

/-- A computation that appends to the trace of effects and ends in an outcome. -/
def Eff (α : Type) : Type := List Effect → Outcome α × List Effect

/-- Normal completion with a value. -/
def Eff.pure {α : Type} (a : α) : Eff α := fun trace => (.returned a, trace)

/-- Sequencing: the rest runs only after normal completion. -/
def Eff.bind {α β : Type} (m : Eff α) (f : α → Eff β) : Eff β := fun trace =>
  match m trace with
  | (.returned a, trace1) => f a trace1
  | (.thrown e, trace1) => (.thrown e, trace1)
  | (.pending, trace1) => (.pending, trace1)

instance : Monad Eff where
  pure := Eff.pure
  bind := Eff.bind

/-- The statement `throw error`. -/
def Eff.throw {α : Type} (error : Thrown) : Eff α := fun trace => (.thrown error, trace)

/-- A promise that never settles. -/
def Eff.never {α : Type} : Eff α := fun trace => (.pending, trace)

/-- The statement `try { body } catch (error) { handler }`. -/
def Eff.tryCatch {α : Type} (body : Eff α) (handler : Thrown → Eff α) : Eff α := fun trace =>
  match body trace with
  | (.thrown e, trace1) => handler e trace1
  | other => other

/-- Appends one effect to the trace. -/
def Eff.emit (effect : Effect) : Eff Unit := fun trace => (.returned (), trace ++ [effect])

/-- The call `console.log(...)`. -/
def consoleLog (args : List LogArg) : Eff Unit :=
  Eff.emit (.console { isError := false, args := args })

/-- The call `console.error(...)`. -/
def consoleError (args : List LogArg) : Eff Unit :=
  Eff.emit (.console { isError := true, args := args })

/-- The expression `await fetch(url, options)`. -/
def awaitFetch (fetch : Fetch) (url : SymString) (options : RequestInit) : Eff Response := do
  Eff.emit (.fetch url options)
  match fetch url options with
  | .ok response => pure response
  | .error e => Eff.throw e

/-- The expression `await response.json()`. -/
def awaitJson (response : Response) : Eff JSON := do
  Eff.emit .json
  match response.json with
  | .ok data => pure data
  | .error e => Eff.throw e

/-- The text `${value}` of a template literal (`ToString`); TypeError when the
conversion throws. -/
def template (value : JSValue) : Eff SymString :=
  match value with
  | none => pure (sym (js "undefined"))
  | some v =>
    match v.toStr with
    | some s => pure s
    | none => Eff.throw .typeError

/-- The statement `if (condition) { throw error; }`. -/
def throwIf (condition : Bool) (error : Thrown) : Eff Unit :=
  if condition then Eff.throw error else pure ()

/-- The guard `if (!response.ok) throw new Error("HTTP error " + response.status)`. -/
def checkOk (response : Response) : Eff Unit :=
  throwIf (!response.ok) (.error (js "HTTP error " ++ decimal response.status))

/-- The expression `response.body.getReader()`, giving the results of the reads
to come; TypeError when the body is null. -/
def getReader (response : Response) : Eff (List ReadResult) :=
  match response.body with
  | some reads => do
    Eff.emit .getReader
    pure reads
  | none => Eff.throw .typeError

/-- The three calls `response.body.on(...)` for `data`, `end` and `error`,
giving the events to come; TypeError when the body is null. -/
def listen (response : Response) : Eff (List ReadResult) :=
  match response.body with
  | some events => do
    Eff.emit (.on (js "data"))
    Eff.emit (.on (js "end"))
    Eff.emit (.on (js "error"))
    pure events
  | none => Eff.throw .typeError

/-- The test `Array.isArray(value)`. -/
def isArray : JSValue → Bool
  | some (.arr _) => true
  | _ => false

/-- The property `value.length` of an array. -/
def arrayLength : JSValue → Nat
  | some (.arr xs) => xs.length
  | _ => 0

/-- The members of the object literal `{ key: value }` as `JSON.stringify` sees
them: a member whose value is `undefined` is left out. -/
def member (key : JSString) (value : JSValue) : List (JSString × JSON) :=
  match value with
  | some v => [(key, v)]
  | none => []

/-- The constant `API_BASE_URL` of test.js and node-test.js. -/
def API_BASE_URL : JSString := js "http://localhost:5000"

/-- The headers `{ 'Accept': 'application/json' }`. -/
def acceptJson : List (JSString × JSString) := [(js "Accept", js "application/json")]

/-- The headers `{ 'Content-Type': 'application/json', 'Accept': 'application/json' }`. -/
def contentTypeAndAccept : List (JSString × JSString) :=
  [(js "Content-Type", js "application/json"), (js "Accept", js "application/json")]

namespace TestJs

/-- Function `getCategoryStatistics()` of test.js. -/
def getCategoryStatistics (fetch : Fetch) : Eff JSON :=
  Eff.tryCatch
    (do
      let response ← awaitFetch fetch (sym (API_BASE_URL ++ js "/api/statistics/category"))
        { method := js "GET", headers := acceptJson, body := none }
      checkOk response
      let data ← awaitJson response
      consoleLog [.text (sym (js "Category Statistics:")), .value (some data)]
      pure data)
    (fun error => do
      consoleError [.text (sym (js "Failed to get category statistics:")), .thrown error]
      Eff.throw error)

/-- Function `getVerificationStatus(jobId)` of test.js. -/
def getVerificationStatus (fetch : Fetch) (jobId : JSValue) : Eff JSON :=
  Eff.tryCatch
    (do
      throwIf (!truthy jobId) (.error (js "Job ID is required"))
      let id ← template jobId
      let response ← awaitFetch fetch (sym (API_BASE_URL ++ js "/api/verify/status/") ++ id)
        { method := js "GET", headers := acceptJson, body := none }
      checkOk response
      let data ← awaitJson response
      consoleLog [.text (sym (js "Verification status for job ") ++ id ++ sym (js ":")),
        .value (some data)]
      pure data)
    (fun error => do
      consoleError [.text (sym (js "Failed to get verification status:")), .thrown error]
      Eff.throw error)

/-- The loop `while (true) { ... await reader.read() ... }` of `verifyBatch`,
run over the results of the successive reads. -/
def readLoop : List ReadResult → JSString → Eff JSString
  | [], _ => do
    Eff.emit .read
    Eff.never
  | .done :: _, result => do
    Eff.emit .read
    pure result
  | .failed error :: _, _ => do
    Eff.emit .read
    Eff.throw error
  | .chunk decoded :: rest, result => do
    Eff.emit .read
    consoleLog [.text (sym (js "Received batch verification chunk:")), .text (sym decoded)]
    readLoop rest (result ++ decoded)

/-- Function `verifyBatch(emails)` of test.js. -/
def verifyBatch (fetch : Fetch) (emails : JSValue) : Eff JSString :=
  Eff.tryCatch
    (do
      throwIf (!truthy emails || !isArray emails || arrayLength emails == 0)
        (.error (js "Valid email array is required"))
      let response ← awaitFetch fetch (sym (API_BASE_URL ++ js "/api/verify/batch"))
        { method := js "POST", headers := contentTypeAndAccept,
          body := some (.stringify (.obj (member (js "emails") emails))) }
      checkOk response
      let reads ← getReader response
      let result ← readLoop reads []
      consoleLog [.text (sym (js "Batch verification complete:")), .text (sym result)]
      pure result)
    (fun error => do
      consoleError [.text (sym (js "Failed to verify batch:")), .thrown error]
      Eff.throw error)

/-- Function `getAllBatchNames()` of test.js. -/
def getAllBatchNames (fetch : Fetch) : Eff JSON :=
  Eff.tryCatch
    (do
      let response ← awaitFetch fetch (sym (API_BASE_URL ++ js "/api/batches"))
        { method := js "GET", headers := acceptJson, body := none }
      checkOk response
      let data ← awaitJson response
      consoleLog [.text (sym (js "All batch names:")), .value (some data)]
      pure data)
    (fun error => do
      consoleError [.text (sym (js "Failed to get batch names:")), .thrown error]
      Eff.throw error)

/-- Function `updateBatchName(batchId, newName)` of test.js. -/
def updateBatchName (fetch : Fetch) (batchId newName : JSValue) : Eff JSON :=
  Eff.tryCatch
    (do
      throwIf (!truthy batchId) (.error (js "Batch ID is required"))
      throwIf (!truthy newName) (.error (js "New batch name is required"))
      let id ← template batchId
      let response ← awaitFetch fetch
        (sym (API_BASE_URL ++ js "/api/batches/") ++ id ++ sym (js "/name"))
        { method := js "PUT", headers := contentTypeAndAccept,
          body := some (.stringify (.obj (member (js "name") newName))) }
      checkOk response
      let data ← awaitJson response
      consoleLog [.text (sym (js "Batch ") ++ id ++ sym (js " name updated:")),
        .value (some data)]
      pure data)
    (fun error => do
      consoleError [.text (sym (js "Failed to update batch name:")), .thrown error]
      Eff.throw error)

end TestJs

namespace NodeTest

/-- Function `getCategoryStatistics()` of node-test.js. -/
def getCategoryStatistics (fetch : Fetch) : Eff JSON :=
  Eff.tryCatch
    (do
      let response ← awaitFetch fetch (sym (API_BASE_URL ++ js "/api/statistics/category"))
        { method := js "GET", headers := acceptJson, body := none }
      checkOk response
      let data ← awaitJson response
      consoleLog [.text (sym (js "Category Statistics:")), .value (some data)]
      pure data)
    (fun error => do
      consoleError [.text (sym (js "Failed to get category statistics:")), .thrown error]
      Eff.throw error)

/-- Function `getVerificationStatus(jobId)` of node-test.js. -/
def getVerificationStatus (fetch : Fetch) (jobId : JSValue) : Eff JSON :=
  Eff.tryCatch
    (do
      throwIf (!truthy jobId) (.error (js "Job ID is required"))
      let id ← template jobId
      let response ← awaitFetch fetch (sym (API_BASE_URL ++ js "/api/verify/status/") ++ id)
        { method := js "GET", headers := acceptJson, body := none }
      checkOk response
      let data ← awaitJson response
      consoleLog [.text (sym (js "Verification status for job ") ++ id ++ sym (js ":")),
        .value (some data)]
      pure data)
    (fun error => do
      consoleError [.text (sym (js "Failed to get verification status:")), .thrown error]
      Eff.throw error)

/-- The `data`, `end` and `error` listeners of `verifyBatch` run over the events
of the response body; the first `end` or `error` settles the returned promise. -/
def bodyEvents : List ReadResult → JSString → Eff JSString
  | [], _ => Eff.never
  | .chunk chunkStr :: rest, result => do
    consoleLog [.text (sym (js "Received batch verification chunk:")), .text (sym chunkStr)]
    bodyEvents rest (result ++ chunkStr)
  | .done :: _, result => do
    consoleLog [.text (sym (js "Batch verification complete:")), .text (sym result)]
    pure result
  | .failed err :: _, _ => Eff.throw err

/-- Function `verifyBatch(emails)` of node-test.js.  The promise it returns from
inside the `try` is not awaited there, so the `catch` covers the statements up
to the registration of the listeners only. -/
def verifyBatch (fetch : Fetch) (emails : JSValue) : Eff JSString := do
  let events ← Eff.tryCatch
    (do
      throwIf (!truthy emails || !isArray emails || arrayLength emails == 0)
        (.error (js "Valid email array is required"))
      let response ← awaitFetch fetch (sym (API_BASE_URL ++ js "/api/verify/batch"))
        { method := js "POST", headers := contentTypeAndAccept,
          body := some (.stringify (.obj (member (js "emails") emails))) }
      checkOk response
      listen response)
    (fun error => do
      consoleError [.text (sym (js "Failed to verify batch:")), .thrown error]
      Eff.throw error)
  bodyEvents events []

/-- Function `getAllBatchNames()` of node-test.js. -/
def getAllBatchNames (fetch : Fetch) : Eff JSON :=
  Eff.tryCatch
    (do
      let response ← awaitFetch fetch (sym (API_BASE_URL ++ js "/api/batches"))
        { method := js "GET", headers := acceptJson, body := none }
      checkOk response
      let data ← awaitJson response
      consoleLog [.text (sym (js "All batch names:")), .value (some data)]
      pure data)
    (fun error => do
      consoleError [.text (sym (js "Failed to get batch names:")), .thrown error]
      Eff.throw error)

/-- Function `updateBatchName(batchId, newName)` of node-test.js. -/
def updateBatchName (fetch : Fetch) (batchId newName : JSValue) : Eff JSON :=
  Eff.tryCatch
    (do
      throwIf (!truthy batchId) (.error (js "Batch ID is required"))
      throwIf (!truthy newName) (.error (js "New batch name is required"))
      let id ← template batchId
      let response ← awaitFetch fetch
        (sym (API_BASE_URL ++ js "/api/batches/") ++ id ++ sym (js "/name"))
        { method := js "PUT", headers := contentTypeAndAccept,
          body := some (.stringify (.obj (member (js "name") newName))) }
      checkOk response
      let data ← awaitJson response
      consoleLog [.text (sym (js "Batch ") ++ id ++ sym (js " name updated:")),
        .value (some data)]
      pure data)
    (fun error => do
      consoleError [.text (sym (js "Failed to update batch name:")), .thrown error]
      Eff.throw error)

/-- The keys of the members, each once, in the order of first appearance. -/
def distinctKeys : List JSString → List JSString
  | [] => []
  | k :: ks => k :: (distinctKeys ks).filter (fun other => other != k)

/-- The key is an array index: the decimal digits, without a leading zero, of a
number up to `2^32 - 2`. -/
def isArrayIndex (key : JSString) : Bool :=
  !key.isEmpty && key.all (fun u => decide (48 ≤ u) && decide (u ≤ 57)) &&
    (key == [48] || key.head? != some 48) && decide (digitsValue key ≤ 4294967294)

/-- The function `Object.keys(value)` on a value other than `null`: array
indices in ascending order first, then the other keys in order of creation. -/
def objectKeys : JSON → List JSString
  | .obj members =>
    let keys := distinctKeys (members.map Prod.fst)
    (((keys.filter isArrayIndex).map digitsValue).insertionSort (fun a b => a ≤ b)).map decimal ++
      keys.filter (fun k => !isArrayIndex k)
  | .arr xs => (List.range xs.length).map decimal
  | .str s => (List.range s.length).map decimal
  | _ => []

/-- The array `emailsToVerify` of `runTests`. -/
def emailsToVerify : JSON :=
  .arr [.str (js "test1@example.com"), .str (js "test2@example.com"),
    .str (js "invalid@nonexistentdomain.xyz")]

/-- Function `runTests()` of node-test.js; `now` is the text of
`new Date().toISOString()`. -/
def runTests (fetch : Fetch) (now : JSString) : Eff Unit :=
  Eff.tryCatch
    (do
      consoleLog [.text (sym (js "\n=== Test 1: Get Category Statistics ==="))]
      let _ ← getCategoryStatistics fetch
      consoleLog [.text (sym (js "\n=== Test 2: Get All Batch Names ==="))]
      let batchesResponse ← getAllBatchNames fetch
      let batches : JSValue :=
        if truthy (some batchesResponse) then batchesResponse.getField (js "batches")
        else some batchesResponse
      let firstBatchId : JSON :=
        match batches with
        | some value =>
          if truthy (some value) then
            match objectKeys value with
            | key :: _ => .str key
            | [] => .null
          else .null
        | none => .null
      if truthy (some firstBatchId) then do
        let id ← template (some firstBatchId)
        consoleLog [.text (sym (js "\n=== Test 3: Get Verification Status for ") ++ id ++
          sym (js " ==="))]
        let _ ← getVerificationStatus fetch (some firstBatchId)
        consoleLog [.text (sym (js "\n=== Test 4: Update Batch Name for ") ++ id ++
          sym (js " ==="))]
        let _ ← updateBatchName fetch (some firstBatchId)
          (some (.str (js "Updated via Node.js " ++ now)))
        pure ()
      else
        consoleLog [.text (sym (js "No batch IDs found, skipping tests that require a batch ID"))]
      consoleLog [.text (sym (js "\n=== Test 5: Verify Batch of Emails ==="))]
      let _ ← verifyBatch fetch (some emailsToVerify)
      pure ())
    (fun error => consoleError [.text (sym (js "Test run failed:")), .thrown error])

end NodeTest

/-! ## test.js and node-test.js: the `try` blocks of the functions -/

namespace TestJs

/-- The `try` block of `getCategoryStatistics` of test.js. -/
def getCategoryStatistics.tryBlock (fetch : Fetch) : Eff JSON := do
  let response ← awaitFetch fetch (sym (API_BASE_URL ++ js "/api/statistics/category"))
    { method := js "GET", headers := acceptJson, body := none }
  checkOk response
  let data ← awaitJson response
  consoleLog [.text (sym (js "Category Statistics:")), .value (some data)]
  pure data

/-- The `try` block of `getVerificationStatus` of test.js. -/
def getVerificationStatus.tryBlock (fetch : Fetch) (jobId : JSValue) : Eff JSON := do
  throwIf (!truthy jobId) (.error (js "Job ID is required"))
  let id ← template jobId
  let response ← awaitFetch fetch (sym (API_BASE_URL ++ js "/api/verify/status/") ++ id)
    { method := js "GET", headers := acceptJson, body := none }
  checkOk response
  let data ← awaitJson response
  consoleLog [.text (sym (js "Verification status for job ") ++ id ++ sym (js ":")),
    .value (some data)]
  pure data

/-- The `try` block of `verifyBatch` of test.js. -/
def verifyBatch.tryBlock (fetch : Fetch) (emails : JSValue) : Eff JSString := do
  throwIf (!truthy emails || !isArray emails || arrayLength emails == 0)
    (.error (js "Valid email array is required"))
  let response ← awaitFetch fetch (sym (API_BASE_URL ++ js "/api/verify/batch"))
    { method := js "POST", headers := contentTypeAndAccept,
      body := some (.stringify (.obj (member (js "emails") emails))) }
  checkOk response
  let reads ← getReader response
  let result ← readLoop reads []
  consoleLog [.text (sym (js "Batch verification complete:")), .text (sym result)]
  pure result

/-- The `try` block of `getAllBatchNames` of test.js. -/
def getAllBatchNames.tryBlock (fetch : Fetch) : Eff JSON := do
  let response ← awaitFetch fetch (sym (API_BASE_URL ++ js "/api/batches"))
    { method := js "GET", headers := acceptJson, body := none }
  checkOk response
  let data ← awaitJson response
  consoleLog [.text (sym (js "All batch names:")), .value (some data)]
  pure data

/-- The `try` block of `updateBatchName` of test.js. -/
def updateBatchName.tryBlock (fetch : Fetch) (batchId newName : JSValue) : Eff JSON := do
  throwIf (!truthy batchId) (.error (js "Batch ID is required"))
  throwIf (!truthy newName) (.error (js "New batch name is required"))
  let id ← template batchId
  let response ← awaitFetch fetch
    (sym (API_BASE_URL ++ js "/api/batches/") ++ id ++ sym (js "/name"))
    { method := js "PUT", headers := contentTypeAndAccept,
      body := some (.stringify (.obj (member (js "name") newName))) }
  checkOk response
  let data ← awaitJson response
  consoleLog [.text (sym (js "Batch ") ++ id ++ sym (js " name updated:")),
    .value (some data)]
  pure data

end TestJs

namespace NodeTest

/-- The `try` block of `getCategoryStatistics` of node-test.js. -/
def getCategoryStatistics.tryBlock (fetch : Fetch) : Eff JSON := do
  let response ← awaitFetch fetch (sym (API_BASE_URL ++ js "/api/statistics/category"))
    { method := js "GET", headers := acceptJson, body := none }
  checkOk response
  let data ← awaitJson response
  consoleLog [.text (sym (js "Category Statistics:")), .value (some data)]
  pure data

/-- The `try` block of `getVerificationStatus` of node-test.js. -/
def getVerificationStatus.tryBlock (fetch : Fetch) (jobId : JSValue) : Eff JSON := do
  throwIf (!truthy jobId) (.error (js "Job ID is required"))
  let id ← template jobId
  let response ← awaitFetch fetch (sym (API_BASE_URL ++ js "/api/verify/status/") ++ id)
    { method := js "GET", headers := acceptJson, body := none }
  checkOk response
  let data ← awaitJson response
  consoleLog [.text (sym (js "Verification status for job ") ++ id ++ sym (js ":")),
    .value (some data)]
  pure data

/-- The `try` block of `verifyBatch` of node-test.js. -/
def verifyBatch.tryBlock (fetch : Fetch) (emails : JSValue) : Eff (List ReadResult) := do
  throwIf (!truthy emails || !isArray emails || arrayLength emails == 0)
    (.error (js "Valid email array is required"))
  let response ← awaitFetch fetch (sym (API_BASE_URL ++ js "/api/verify/batch"))
    { method := js "POST", headers := contentTypeAndAccept,
      body := some (.stringify (.obj (member (js "emails") emails))) }
  checkOk response
  listen response

/-- The `try` block of `getAllBatchNames` of node-test.js. -/
def getAllBatchNames.tryBlock (fetch : Fetch) : Eff JSON := do
  let response ← awaitFetch fetch (sym (API_BASE_URL ++ js "/api/batches"))
    { method := js "GET", headers := acceptJson, body := none }
  checkOk response
  let data ← awaitJson response
  consoleLog [.text (sym (js "All batch names:")), .value (some data)]
  pure data

/-- The `try` block of `updateBatchName` of node-test.js. -/
def updateBatchName.tryBlock (fetch : Fetch) (batchId newName : JSValue) : Eff JSON := do
  throwIf (!truthy batchId) (.error (js "Batch ID is required"))
  throwIf (!truthy newName) (.error (js "New batch name is required"))
  let id ← template batchId
  let response ← awaitFetch fetch
    (sym (API_BASE_URL ++ js "/api/batches/") ++ id ++ sym (js "/name"))
    { method := js "PUT", headers := contentTypeAndAccept,
      body := some (.stringify (.obj (member (js "name") newName))) }
  checkOk response
  let data ← awaitJson response
  consoleLog [.text (sym (js "Batch ") ++ id ++ sym (js " name updated:")),
    .value (some data)]
  pure data

/-- The `try` block of `runTests` of node-test.js. -/
def runTests.tryBlock (fetch : Fetch) (now : JSString) : Eff Unit := do
  consoleLog [.text (sym (js "\n=== Test 1: Get Category Statistics ==="))]
  let _ ← getCategoryStatistics fetch
  consoleLog [.text (sym (js "\n=== Test 2: Get All Batch Names ==="))]
  let batchesResponse ← getAllBatchNames fetch
  let batches : JSValue :=
    if truthy (some batchesResponse) then batchesResponse.getField (js "batches")
    else some batchesResponse
  let firstBatchId : JSON :=
    match batches with
    | some value =>
      if truthy (some value) then
        match objectKeys value with
        | key :: _ => .str key
        | [] => .null
      else .null
    | none => .null
  if truthy (some firstBatchId) then do
    let id ← template (some firstBatchId)
    consoleLog [.text (sym (js "\n=== Test 3: Get Verification Status for ") ++ id ++
      sym (js " ==="))]
    let _ ← getVerificationStatus fetch (some firstBatchId)
    consoleLog [.text (sym (js "\n=== Test 4: Update Batch Name for ") ++ id ++
      sym (js " ==="))]
    let _ ← updateBatchName fetch (some firstBatchId)
      (some (.str (js "Updated via Node.js " ++ now)))
    pure ()
  else
    consoleLog [.text (sym (js "No batch IDs found, skipping tests that require a batch ID"))]
  consoleLog [.text (sym (js "\n=== Test 5: Verify Batch of Emails ==="))]
  let _ ← verifyBatch fetch (some emailsToVerify)
  pure ()

end NodeTest

/-! ## test-api.js: the endpoint forms -/

/-- The arguments of one call `addEndpoint(sectionId, title, method, path, body, id)`.
`bodyText` is the text `JSON.stringify(body, null, 2)` the platform computes for
a body. -/
structure Endpoint where
  sectionId : JSString
  title : JSString
  method : JSString
  path : JSString
  body : JSValue
  bodyText : JSString
  id : JSString
deriving Repr

/-- One `textarea` of the page: its `id` and its current `value`. -/
structure Textarea where
  id : JSString
  value : JSString
deriving Repr

/-- One section `div` made by `createSection(title, id)`: the argument `id` (the
element has the id `id + '-section'`) and the textareas inside, in document order. -/
structure Section where
  name : JSString
  textareas : List Textarea
deriving Repr

/-- The parts of the document the endpoint forms read: the value of the input
`#api-url` and the sections in document order. -/
structure Document where
  apiUrl : JSString
  sections : List Section
deriving Repr

/-- All textareas of the document, in document order. -/
def Document.textareas (doc : Document) : List Textarea :=
  doc.sections.flatMap Section.textareas

/-- The call `document.getElementById(id)` for an `id` that ends in `-input`;
only the textareas made by `addEndpoint` have such ids.  The first element in
document order with the id is found. -/
def Document.getTextarea (doc : Document) (id : JSString) : Option Textarea :=
  doc.textareas.find? (fun t => t.id == id)

/-- The test `path.includes('?') || path.includes(':')`. -/
def Endpoint.pathEditable (e : Endpoint) : Bool := e.path.contains 63 || e.path.contains 58

/-- The condition `body || path.includes('?') || path.includes(':')` under which
`addEndpoint` makes a textarea. -/
def Endpoint.hasInput (e : Endpoint) : Bool := truthy e.body || e.pathEditable

/-- The statement `section.appendChild(endpointDiv)` for the first section with
the given name, seen on the textareas; `none` when there is no such section. -/
def appendToSection (name : JSString) (added : List Textarea) :
    List Section → Option (List Section)
  | [] => none
  | s :: rest =>
    if s.name == name then some ({ s with textareas := s.textareas ++ added } :: rest)
    else (appendToSection name added rest).map (fun sections => s :: sections)

/-- Function `addEndpoint` of test-api.js, seen on the textareas of the document.
A missing section makes the final `section.appendChild` throw a TypeError and
nothing is added. -/
def addEndpoint (e : Endpoint) (doc : Document) : Except Thrown Document :=
  let added : List Textarea :=
    if e.hasInput then
      [{ id := e.id ++ js "-input", value := if truthy e.body then e.bodyText else e.path }]
    else []
  match appendToSection e.sectionId added doc.sections with
  | some sections => .ok { doc with sections := sections }
  | none => .error .typeError

/-- A sequence of `addEndpoint` calls; the first one that throws ends it. -/
def registerAll : List Endpoint → Document → Except Thrown Document
  | [], doc => .ok doc
  | e :: rest, doc =>
    match addEndpoint e doc with
    | .ok doc1 => registerAll rest doc1
    | .error err => .error err

/-- The document after the `createSection` calls of the `DOMContentLoaded`
handler, before any endpoint is added. -/
def initialDocument : Document :=
  { apiUrl := js "http://localhost:5000",
    sections := [{ name := js "verification", textareas := [] },
      { name := js "results", textareas := [] },
      { name := js "statistics", textareas := [] },
      { name := js "settings", textareas := [] }] }

/-- The body `emails` and `job_id` of the two batch endpoints. -/
def batchBody : JSON :=
  .obj [(js "emails", .arr [.str (js "info@xos.ma"), .str (js "phar.s@yahoo.com"),
      .str (js "pharmacie.casablanca10@gmail.com")]),
    (js "job_id", .str (js "my_job_123"))]

/-- The text `JSON.stringify(batchBody, null, 2)`. -/
def batchBodyText : JSString :=
  js ("\x7b\n  \"emails\": [\n    \"info@xos.ma\",\n    \"phar.s@yahoo.com\",\n" ++
    "    \"pharmacie.casablanca10@gmail.com\"\n  ],\n  \"job_id\": \"my_job_123\"\n\x7d")

/-- The call `addEndpoint` for `Verify a Single Email`. -/
def verifyEmailEndpoint : Endpoint :=
  { sectionId := js "verification", title := js "Verify a Single Email", method := js "POST",
    path := js "/api/verify/email",
    body := some (.obj [(js "email", .str (js "example@example.com"))]),
    bodyText := js "\x7b\n  \"email\": \"example@example.com\"\n\x7d", id := js "verifyEmail" }

/-- The call `addEndpoint` for `Verify Batch of Emails (Streaming)`. -/
def verifyBatchStreamEndpoint : Endpoint :=
  { sectionId := js "verification", title := js "Verify Batch of Emails (Streaming)",
    method := js "POST", path := js "/api/verify/batch", body := some batchBody,
    bodyText := batchBodyText, id := js "verifyBatchStream" }

/-- The call `addEndpoint` for `Get Job Status`. -/
def jobStatusEndpoint : Endpoint :=
  { sectionId := js "verification", title := js "Get Job Status", method := js "GET",
    path := js "/api/verify/status/my_job_123", body := some .null, bodyText := js "null",
    id := js "jobStatus" }

/-- The call `addEndpoint` for `Get Email History`. -/
def emailHistoryEndpoint : Endpoint :=
  { sectionId := js "statistics", title := js "Get Email History", method := js "GET",
    path := js "/api/statistics/history/email?email=example@example.com", body := some .null,
    bodyText := js "null", id := js "emailHistory" }

/-- The eleven `addEndpoint` calls of the `DOMContentLoaded` handler, in order. -/
def pageEndpoints : List Endpoint :=
  [verifyEmailEndpoint,
   { sectionId := js "verification", title := js "Verify Batch of Emails", method := js "POST",
     path := js "/api/verify/batch", body := some batchBody, bodyText := batchBodyText,
     id := js "verifyBatch" },
   verifyBatchStreamEndpoint,
   jobStatusEndpoint,
   { sectionId := js "results", title := js "Get All Results", method := js "GET",
     path := js "/api/results", body := some .null, bodyText := js "null", id := js "allResults" },
   { sectionId := js "results", title := js "Get Job Results", method := js "GET",
     path := js "/api/results/my_job_123", body := some .null, bodyText := js "null",
     id := js "jobResults" },
   { sectionId := js "statistics", title := js "Get Global Statistics", method := js "GET",
     path := js "/api/statistics", body := some .null, bodyText := js "null",
     id := js "globalStats" },
   emailHistoryEndpoint,
   { sectionId := js "statistics", title := js "Get Category History", method := js "GET",
     path := js "/api/statistics/history?category=valid", body := some .null,
     bodyText := js "null", id := js "categoryHistory" },
   { sectionId := js "settings", title := js "Get All Settings", method := js "GET",
     path := js "/api/settings", body := some .null, bodyText := js "null",
     id := js "allSettings" },
   { sectionId := js "settings", title := js "Update Settings", method := js "PUT",
     path := js "/api/settings",
     body := some (.obj [(js "multi_terminal_enabled",
         .obj [(js "value", .str (js "True")), (js "enabled", .bool true)]),
       (js "terminal_count", .obj [(js "value", .str (js "4")), (js "enabled", .bool true)])]),
     bodyText := js ("\x7b\n  \"multi_terminal_enabled\": \x7b\n    \"value\": \"True\",\n" ++
       "    \"enabled\": true\n  \x7d,\n  \"terminal_count\": \x7b\n    \"value\": \"4\",\n" ++
       "    \"enabled\": true\n  \x7d\n\x7d"),
     id := js "updateSettings" }]

/-- The document once the `DOMContentLoaded` handler has added the endpoints. -/
def loadedDocument : Document :=
  match registerAll pageEndpoints initialDocument with
  | .ok doc => doc
  | .error _ => initialDocument

/-- The document after the user has replaced the text of the textarea with the
given id. -/
def Document.withValue (doc : Document) (id value : JSString) : Document :=
  { doc with sections := doc.sections.map (fun s =>
      { s with textareas := s.textareas.map (fun t =>
          if t.id == id then { t with value := value } else t) }) }

/-- A response as the regular endpoints read it: besides the parts of
`Response`, the header `response.headers.get("content-type")` (`none` for
`null`) and what `response.text()` settles to. -/
structure PageResponse where
  response : Response
  contentType : Option JSString
  text : Except Thrown JSString
deriving Repr

/-- The platform function `fetch` of the page. -/
abbrev PageFetch := SymString → RequestInit → Except Thrown PageResponse

/-- The argument of a `showResponse` call: `{ error: message }`,
`{ status: 'Loading...' }`, or `{ status, statusText, data }`. -/
inductive Shown where
  | error (message : Text)
  | loading
  | result (status : Nat) (statusText : JSString) (data : JSON)
deriving Repr

/-- The text starts with the given text. -/
def startsWith : JSString → JSString → Bool
  | [], _ => true
  | _ :: _, [] => false
  | a :: needle, b :: rest => a == b && startsWith needle rest

/-- The test `text.indexOf(needle) !== -1`. -/
def indexOfFound (needle : JSString) : JSString → Bool
  | [] => startsWith needle []
  | u :: rest => startsWith needle (u :: rest) || indexOfFound needle rest

/-- The promise chain after `fetch(url, options)` in the click handler: the
argument of the `showResponse` call it ends with. -/
def showFetched (settled : Except Thrown PageResponse) : Shown :=
  match settled with
  | .error err => .error err.messageText
  | .ok r =>
    let isJson : Bool :=
      match r.contentType with
      | some contentType =>
        !contentType.isEmpty && indexOfFound (js "application/json") contentType
      | none => false
    if isJson then
      match r.response.json with
      | .ok data => .result r.response.status r.response.statusText data
      | .error err => .error err.messageText
    else
      match r.text with
      | .ok t => .result r.response.status r.response.statusText (.str t)
      | .error err => .error err.messageText

/-- What a click on `Test Endpoint` did: the arguments of the `showResponse`
calls in order, the `(url, options)` passed to `fetch` (directly or by
`handleStreamingResponse`), and the response area `handleStreamingResponse`
left when it was called. -/
structure ClickResult where
  shown : List Shown
  requests : List (JSString × RequestInit)
  stream : Option Page
deriving Repr

/-- The variable `url` of the click handler. -/
def clickUrl (e : Endpoint) (doc : Document) : JSString :=
  if truthy e.body then doc.apiUrl ++ e.path
  else
    match doc.getTextarea (e.id ++ js "-input") with
    | some input => doc.apiUrl ++ input.value
    | none => doc.apiUrl ++ e.path

/-- The block `if (body) { ... }` of the click handler that fills `options`:
the options, or the error caught by its `catch`. -/
def clickOptions (parse : JSString → Except Thrown JSON) (e : Endpoint) (doc : Document) :
    Except Thrown RequestInit :=
  if truthy e.body then
    match doc.getTextarea (e.id ++ js "-input") with
    | none => .error .typeError
    | some input =>
      match parse input.value with
      | .ok _ =>
        .ok { method := e.method, headers := [(js "Content-Type", js "application/json")],
              body := some (.text input.value) }
      | .error err => .error err
  else .ok { method := e.method, headers := [], body := none }

/-- The click handler `addEndpoint` puts on the button `Test Endpoint`. -/
def onClick (parse : JSString → Except Thrown JSON) (fetch : PageFetch) (e : Endpoint)
    (doc : Document) : ClickResult :=
  let url := clickUrl e doc
  match clickOptions parse e doc with
  | .error _ =>
    { shown := [.error (text (js "Invalid JSON in request body"))], requests := [],
      stream := none }
  | .ok options =>
    if e.id == js "verifyBatchStream" then
      { shown := [.loading], requests := [(url, options)],
        stream := some (handleStreamingResponse parse
          (fun u o => (fetch u o).map PageResponse.response) url options) }
    else
      { shown := [.loading, showFetched (fetch (sym url) options)],
        requests := [(url, options)], stream := none }

/-! ## Observations on traces and pages, used to state the properties -/

/-- The effect touches the response body: `response.json()`, `getReader()`, a
`read()` or a listener put on the body. -/
def Effect.readsBody : Effect → Bool
  | .json => true
  | .getReader => true
  | .read => true
  | .on _ => true
  | _ => false

/-- The error a `catch` handler logged, for a `console.error(label, error)` entry. -/
def Effect.caught : Effect → Option Thrown
  | .console entry =>
    match entry.isError, entry.args with
    | true, [_, .thrown e] => some e
    | _, _ => none
  | _ => none

/-- The call was rejected with `HTTP error <status>` and never touched the
response body. -/
def failsWithHttpError {α : Type} (result : Outcome α × List Effect) (status : Nat) : Prop :=
  result.1 = .thrown (.error (js "HTTP error " ++ decimal status)) ∧
    result.2.any Effect.readsBody = false

/-- Every error a `catch` handler logged during the call is the error the call
is rejected with. -/
def rethrowsCaught {α : Type} (result : Outcome α × List Effect) : Prop :=
  ∀ e ∈ result.2.filterMap Effect.caught, result.1 = .thrown e

/-- The effect `console.error(label, error)` of a catch handler. -/
def caughtEntry (label : JSString) (error : Thrown) : Effect :=
  .console { isError := true, args := [.text (sym label), .thrown error] }

/-- The call runs the block; an error thrown in the block is logged with the
label and is then the error the call is rejected with; a block that does not
throw ends the call as it ends itself. -/
def logsAndRethrows {α : Type} (call block : Eff α) (label : JSString) : Prop :=
  ∀ trace, call trace =
    match block trace with
    | (.thrown error, trace1) => (.thrown error, trace1 ++ [caughtEntry label error])
    | other => other

/-- The call runs the block; an error thrown in the block is logged with the
label, after which the call completes normally; a block that does not throw ends
the call as it ends itself. -/
def logsAndReturns (call block : Eff Unit) (label : JSString) : Prop :=
  ∀ trace, call trace =
    match block trace with
    | (.thrown error, trace1) => (.returned (), trace1 ++ [caughtEntry label error])
    | other => other

/-- The call was rejected with the error, and the last thing it did was to log
that error with the label. -/
def rejectedAfterLogging {α : Type} (result : Outcome α × List Effect) (label : JSString)
    (error : Thrown) : Prop :=
  result.1 = .thrown error ∧ result.2.getLast? = some (caughtEntry label error)

/-- The computation logs no caught error. -/
def Quiet {α : Type} (m : Eff α) : Prop :=
  ∀ trace, (m trace).2.filterMap Effect.caught = trace.filterMap Effect.caught

/-- The guard `!emails || !Array.isArray(emails) || emails.length === 0` of
`verifyBatch`. -/
def invalidEmails (emails : JSValue) : Bool :=
  !truthy emails || !isArray emails || arrayLength emails == 0

/-- The error `new Error('Valid email array is required')`. -/
def emailArrayRequired : Thrown := .error (js "Valid email array is required")

/-- The request `verifyBatch` sends for an array of emails. -/
def batchRequest (array : JSON) : Effect :=
  .fetch (sym (API_BASE_URL ++ js "/api/verify/batch"))
    { method := js "POST", headers := contentTypeAndAccept,
      body := some (.stringify (.obj [(js "emails", array)])) }

/-- The effect is a `fetch` call. -/
def Effect.isFetch : Effect → Bool
  | .fetch _ _ => true
  | _ => false

/-- The platform never rejects a `fetch` with the given error and never fails a
body with it. -/
def neverFailsWith (fetch : Fetch) (error : Thrown) : Prop :=
  (∀ url options, fetch url options ≠ .error error) ∧
  (∀ url options response reads, fetch url options = .ok response →
    response.body = some reads → ReadResult.failed error ∉ reads)

/-- The page before `handleStreamingResponse` has written anything. -/
def blankPage : Page :=
  { status := [], items := [], console := [], calls := [], readerObtained := false }

/-- The `addStreamItem` calls the loop body of `processStream` makes for one line. -/
def lineCalls (parse : JSString → Except Thrown JSON) (line : JSString) : List JSON :=
  (processLines parse [line] blankPage).2.calls

/-- The `console.error` reports the loop body of `processStream` makes for one line. -/
def lineReports (parse : JSString → Except Thrown JSON) (line : JSString) : List ConsoleEntry :=
  (processLines parse [line] blankPage).2.console

/-- Rendering the value with `addStreamItem` throws. -/
def rendersWithError (json : JSON) : Bool :=
  match (addStreamItem json blankPage).1 with
  | .ok _ => false
  | .error _ => true

/-- The five chunks the sample run recorded at the end of node-test.js received
in Test 5, each ending with a line feed. -/
def sampleChunks : List JSString :=
  [js "\x7b\"job_id\": \"batch_1744840260_125df2cf\", \"status\": \"started\", \"total_emails\": 3, \"message\": \"Batch verification started\", \"timestamp\": \"2025-04-16 22:51:00\"\x7d\n",
   js "\x7b\"email\": \"test1@example.com\", \"category\": \"invalid\", \"provider\": \"example.com\", \"timestamp\": \"2025-04-16 22:51:02\"\x7d\n",
   js "\x7b\"email\": \"test2@example.com\", \"category\": \"invalid\", \"provider\": \"example.com\", \"timestamp\": \"2025-04-16 22:51:02\"\x7d\n",
   js "\x7b\"email\": \"invalid@nonexistentdomain.xyz\", \"category\": \"risky\", \"provider\": \"nonexistentdomain.xyz\", \"timestamp\": \"2025-04-16 22:51:07\"\x7d\n",
   js "\x7b\"job_id\": \"batch_1744840260_125df2cf\", \"status\": \"completed\", \"total_emails\": 3, \"verified_emails\": 3, \"results\": \x7b\"valid\": 0, \"invalid\": 2, \"risky\": 1, \"custom\": 0\x7d, \"timestamp\": \"2025-04-16 22:51:07\"\x7d\n"]

/-- The text the sample run logged as `Batch verification complete:`. -/
def sampleComplete : JSString :=
  js ("\x7b\"job_id\": \"batch_1744840260_125df2cf\", \"status\": \"started\", \"total_emails\": 3, \"message\": \"Batch verification started\", \"timestamp\": \"2025-04-16 22:51:00\"\x7d\n" ++
    "\x7b\"email\": \"test1@example.com\", \"category\": \"invalid\", \"provider\": \"example.com\", \"timestamp\": \"2025-04-16 22:51:02\"\x7d\n" ++
    "\x7b\"email\": \"test2@example.com\", \"category\": \"invalid\", \"provider\": \"example.com\", \"timestamp\": \"2025-04-16 22:51:02\"\x7d\n" ++
    "\x7b\"email\": \"invalid@nonexistentdomain.xyz\", \"category\": \"risky\", \"provider\": \"nonexistentdomain.xyz\", \"timestamp\": \"2025-04-16 22:51:07\"\x7d\n" ++
    "\x7b\"job_id\": \"batch_1744840260_125df2cf\", \"status\": \"completed\", \"total_emails\": 3, \"verified_emails\": 3, \"results\": \x7b\"valid\": 0, \"invalid\": 2, \"risky\": 1, \"custom\": 0\x7d, \"timestamp\": \"2025-04-16 22:51:07\"\x7d\n")

/-- A successful response whose body delivers the chunks of the sample run. -/
def sampleResponse : Response :=
  { status := 200, statusText := js "OK",
    body := some (sampleChunks.map ReadResult.chunk ++ [.done]), json := .ok .null }

/-! ## Lemmas on `split` -/

theorem split_ne_nil (s : JSString) : split s ≠ [] := by
  cases s with
  | nil => simp [split]
  | cons u rest =>
    unfold split
    split_ifs
    · simp
    · cases h : split rest <;> simp

theorem split_cons_newline (rest : JSString) : split (newline :: rest) = [] :: split rest := by
  simp [split]

theorem split_cons_other (u : Nat) (rest : JSString) (h : u ≠ newline) :
    split (u :: rest) = (u :: (split rest).headD []) :: (split rest).tail := by
  have hne := split_ne_nil rest
  rw [split]
  rw [if_neg h]
  cases hs : split rest with
  | nil => exact absurd hs hne
  | cons piece pieces => simp

/-- Appending text to a split string only touches the last piece. -/
theorem split_append (a b : JSString) :
    split (a ++ b) = (split a).dropLast ++ split ((split a).getLastD [] ++ b) := by
  induction a with
  | nil => simp [split]
  | cons u rest ih =>
    by_cases h : u = newline
    · subst h
      have hne := split_ne_nil rest
      rw [List.cons_append, split_cons_newline, split_cons_newline, ih]
      cases hs : split rest with
      | nil => exact absurd hs hne
      | cons piece pieces => simp
    · have hne := split_ne_nil rest
      rw [List.cons_append, split_cons_other _ _ h, split_cons_other _ _ h, ih]
      cases hs : split rest with
      | nil => exact absurd hs hne
      | cons piece pieces =>
        cases pieces with
        | nil =>
          simp
          rw [split_cons_other _ _ h]
          simp
        | cons p2 ps =>
          simp

theorem split_getLast_append_dropLast (s : JSString) :
    (split s).dropLast ++ [(split s).getLastD []] = split s := by
  have hne := split_ne_nil s
  rw [List.getLastD_eq_getLast?, List.getLast?_eq_getLast _ hne]
  simp [List.dropLast_append_getLast]

/-- No piece of a split contains a line feed. -/
theorem newline_not_mem_split (s : JSString) : ∀ piece ∈ split s, newline ∉ piece := by
  induction s with
  | nil => simp [split]
  | cons u rest ih =>
    by_cases h : u = newline
    · subst h
      rw [split_cons_newline]
      intro piece hp
      rcases List.mem_cons.mp hp with rfl | hp
      · simp
      · exact ih piece hp
    · rw [split_cons_other _ _ h]
      have hne := split_ne_nil rest
      cases hs : split rest with
      | nil => exact absurd hs hne
      | cons p ps =>
        rw [hs] at ih
        intro piece hp
        simp at hp
        rcases hp with rfl | hp
        · have := ih p (by simp)
          simp
          exact ⟨fun e => h e.symm, this⟩
        · exact ih piece (by simp [hp])

/-- A split string is recovered by writing a line feed after every piece but
the last. -/
theorem flatMap_split (s : JSString) :
    (split s).dropLast.flatMap (fun piece => piece ++ [newline]) ++ (split s).getLastD [] = s := by
  induction s with
  | nil => simp [split]
  | cons u rest ih =>
    have hne := split_ne_nil rest
    by_cases h : u = newline
    · subst h
      rw [split_cons_newline]
      cases hs : split rest with
      | nil => exact absurd hs hne
      | cons p ps =>
        rw [hs] at ih
        simp at ih ⊢
        exact ih
    · rw [split_cons_other _ _ h]
      cases hs : split rest with
      | nil => exact absurd hs hne
      | cons p ps =>
        rw [hs] at ih
        cases ps with
        | nil => simp at ih ⊢; exact ih
        | cons p2 ps2 => simp at ih ⊢; exact ih

/-- Splitting a text without line feed gives the text as only piece. -/
theorem split_of_no_newline (s : JSString) (h : newline ∉ s) : split s = [s] := by
  induction s with
  | nil => simp [split]
  | cons u rest ih =>
    have hu : u ≠ newline := fun e => h (by simp [e])
    have hr : newline ∉ rest := fun e => h (by simp [e])
    rw [split_cons_other _ _ hu, ih hr]
    simp

theorem getLastD_mem_split (s : JSString) : (split s).getLastD [] ∈ split s := by
  have hne := split_ne_nil s
  rw [List.getLastD_eq_getLast?, List.getLast?_eq_getLast _ hne]
  exact List.getLast_mem hne

theorem getLastD_append_of_ne_nil {α : Type} (a b : List α) (d : α) (h : b ≠ []) :
    (a ++ b).getLastD d = b.getLastD d := by
  rw [List.getLastD_eq_getLast?, List.getLastD_eq_getLast?, List.getLast?_append_of_ne_nil _ h]

theorem split_line (line rest : JSString) (h : newline ∉ line) :
    split (line ++ newline :: rest) = line :: split rest := by
  induction line with
  | nil => simp [split]
  | cons u us ih =>
    have hu : u ≠ newline := fun e => h (by simp [e])
    have hr : newline ∉ us := fun e => h (by simp [e])
    rw [List.cons_append, split_cons_other _ _ hu, ih hr]
    simp

/-- Lines without line feed, each followed by a line feed, split back into the
lines and an empty last piece. -/
theorem split_terminated_lines (lines : List JSString) (h : ∀ line ∈ lines, newline ∉ line) :
    split (lines.flatMap (fun line => line ++ [newline])) = lines ++ [[]] := by
  induction lines with
  | nil => simp [split]
  | cons line rest ih =>
    have h1 : newline ∉ line := h line (by simp)
    have h2 : ∀ l ∈ rest, newline ∉ l := fun l hl => h l (by simp [hl])
    simp only [List.flatMap_cons, List.append_assoc, List.singleton_append]
    rw [split_line _ _ h1, ih h2]
    simp

/-! ## Lemmas on the line loop -/

theorem trim_eq_nil_of_all_whiteSpace (line : JSString)
    (h : ∀ u ∈ line, isWhiteSpace u = true) : trim line = [] := by
  have h1 : line.dropWhile isWhiteSpace = [] := by
    rw [List.dropWhile_eq_nil_iff]
    exact h
  simp [trim, h1]

theorem getField_invalidJsonItem (line : JSString) :
    (invalidJsonItem line).getField (js "status") = none ∧
    (invalidJsonItem line).getField (js "email") = none := by
  have h1 : js "error" ≠ js "status" := by decide
  have h2 : js "error" ≠ js "email" := by decide
  simp [invalidJsonItem, JSON.getField, lookupMember, h1, h2]

/-- Rendering the error object never throws: it is appended with the class
`stream-item` alone. -/
theorem addStreamItem_invalidJsonItem (line : JSString) (page : Page) :
    addStreamItem (invalidJsonItem line) page =
      (.ok (), { page with
        calls := page.calls ++ [invalidJsonItem line],
        items := page.items ++
          [{ classList := [sym (js "stream-item")], pre := invalidJsonItem line }] }) := by
  obtain ⟨h1, h2⟩ := getField_invalidJsonItem line
  simp only [invalidJsonItem] at h1 h2 ⊢
  unfold addStreamItem
  simp [h1, h2, strictEqualsString, truthy]

/-- The loop over the lines always runs to its end: no error leaves it. -/
theorem processLines_ok (parse : JSString → Except Thrown JSON) (lines : List JSString)
    (page : Page) : (processLines parse lines page).1 = .ok () := by
  induction lines generalizing page with
  | nil => simp [processLines]
  | cons line rest ih =>
    unfold processLines
    split_ifs
    · exact ih _
    · simp only
      split
      · exact ih _
      · rw [addStreamItem_invalidJsonItem]
        exact ih _

theorem processLines_cons (parse : JSString → Except Thrown JSON) (line : JSString)
    (rest : List JSString) (page : Page) :
    processLines parse (line :: rest) page =
      processLines parse rest (processLines parse [line] page).2 := by
  conv_lhs => rw [processLines]
  conv_rhs => rw [processLines]
  split_ifs
  · simp [processLines]
  · simp only
    split
    · simp [processLines]
    · rw [addStreamItem_invalidJsonItem]
      simp [processLines]

theorem processLines_append (parse : JSString → Except Thrown JSON) (l1 l2 : List JSString)
    (page : Page) :
    processLines parse (l1 ++ l2) page = processLines parse l2 (processLines parse l1 page).2 := by
  induction l1 generalizing page with
  | nil => simp [processLines]
  | cons line rest ih =>
    rw [List.cons_append, processLines_cons, ih, processLines_cons parse line rest]

theorem addStreamItem_fst (json : JSON) (page : Page) :
    (addStreamItem json page).1 = (addStreamItem json blankPage).1 := by
  unfold addStreamItem
  cases json <;> simp only <;> split <;> rfl

theorem addStreamItem_calls (json : JSON) (page : Page) :
    (addStreamItem json page).2.calls = page.calls ++ [json] := by
  unfold addStreamItem
  cases json <;> simp only <;> split <;> rfl

theorem addStreamItem_console (json : JSON) (page : Page) :
    (addStreamItem json page).2.console = page.console := by
  unfold addStreamItem
  cases json <;> simp only <;> split <;> rfl

/-- The calls of one pass of the loop body do not depend on the page. -/
theorem processLines_single_calls (parse : JSString → Except Thrown JSON) (line : JSString)
    (page : Page) :
    (processLines parse [line] page).2.calls = page.calls ++ lineCalls parse line := by
  unfold lineCalls
  simp only [processLines]
  split_ifs
  · simp [blankPage]
  · cases hp : parse line with
    | error e =>
      simp [addStreamItem_invalidJsonItem, blankPage]
    | ok json =>
      simp only
      have h1 := addStreamItem_fst json page
      have h2 := addStreamItem_calls json page
      have h3 := addStreamItem_calls json blankPage
      rcases hA : addStreamItem json page with ⟨r1, p1⟩
      rcases hB : addStreamItem json blankPage with ⟨r2, p2⟩
      rw [hA, hB] at h1
      rw [hA] at h2
      rw [hB] at h3
      simp only at h1 h2 h3
      subst h1
      cases r1 with
      | ok u => simp [h2, h3, blankPage]
      | error e => simp [addStreamItem_invalidJsonItem, h2, h3, blankPage]

theorem processLines_calls (parse : JSString → Except Thrown JSON) (lines : List JSString)
    (page : Page) :
    (processLines parse lines page).2.calls = page.calls ++ lines.flatMap (lineCalls parse) := by
  induction lines generalizing page with
  | nil => simp [processLines]
  | cons line rest ih =>
    rw [processLines_cons, ih, processLines_single_calls]
    simp

/-- The reports of one pass of the loop body do not depend on the page. -/
theorem processLines_single_console (parse : JSString → Except Thrown JSON) (line : JSString)
    (page : Page) :
    (processLines parse [line] page).2.console = page.console ++ lineReports parse line := by
  unfold lineReports
  simp only [processLines]
  split_ifs
  · simp [blankPage]
  · cases hp : parse line with
    | error e =>
      simp [addStreamItem_invalidJsonItem, blankPage]
    | ok json =>
      simp only
      have h1 := addStreamItem_fst json page
      have h2 := addStreamItem_console json page
      have h3 := addStreamItem_console json blankPage
      rcases hA : addStreamItem json page with ⟨r1, p1⟩
      rcases hB : addStreamItem json blankPage with ⟨r2, p2⟩
      rw [hA, hB] at h1
      rw [hA] at h2
      rw [hB] at h3
      simp only at h1 h2 h3
      subst h1
      cases r1 with
      | ok u => simp [h2, h3, blankPage]
      | error e => simp [addStreamItem_invalidJsonItem, h2, h3, blankPage]

theorem processLines_console (parse : JSString → Except Thrown JSON) (lines : List JSString)
    (page : Page) :
    (processLines parse lines page).2.console =
      page.console ++ lines.flatMap (lineReports parse) := by
  induction lines generalizing page with
  | nil => simp [processLines]
  | cons line rest ih =>
    rw [processLines_cons, ih, processLines_single_console]
    simp

theorem lineCalls_blank (parse : JSString → Except Thrown JSON) (line : JSString)
    (h : ∀ u ∈ line, isWhiteSpace u = true) : lineCalls parse line = [] := by
  simp [lineCalls, processLines, trim_eq_nil_of_all_whiteSpace line h, blankPage]

theorem lineCalls_malformed (parse : JSString → Except Thrown JSON) (line : JSString)
    (e : Thrown) (hb : trim line ≠ []) (hp : parse line = .error e) :
    lineCalls parse line = [invalidJsonItem line] := by
  simp [lineCalls, processLines, hb, hp, addStreamItem_invalidJsonItem, blankPage]

theorem lineCalls_rendered (parse : JSString → Except Thrown JSON) (line : JSString)
    (value : JSON) (hb : trim line ≠ []) (hp : parse line = .ok value)
    (hr : rendersWithError value = false) : lineCalls parse line = [value] := by
  have h3 := addStreamItem_calls value blankPage
  unfold rendersWithError at hr
  unfold lineCalls
  simp only [processLines, hp, List.isEmpty_iff, hb, if_false]
  rcases hB : addStreamItem value blankPage with ⟨r, p⟩
  rw [hB] at hr h3
  cases r with
  | error e => simp at hr
  | ok u => simpa [blankPage] using h3

theorem lineCalls_render_error (parse : JSString → Except Thrown JSON) (line : JSString)
    (value : JSON) (hb : trim line ≠ []) (hp : parse line = .ok value)
    (hr : rendersWithError value = true) :
    lineCalls parse line = [value, invalidJsonItem line] := by
  have h3 := addStreamItem_calls value blankPage
  unfold rendersWithError at hr
  unfold lineCalls
  simp only [processLines, hp, List.isEmpty_iff, hb, if_false]
  rcases hB : addStreamItem value blankPage with ⟨r, p⟩
  rw [hB] at hr h3
  cases r with
  | ok u => simp at hr
  | error e =>
    simp only at h3
    simp [addStreamItem_invalidJsonItem, h3, blankPage]

theorem lineReports_malformed (parse : JSString → Except Thrown JSON) (line : JSString)
    (e : Thrown) (hb : trim line ≠ []) (hp : parse line = .error e) :
    lineReports parse line =
      [{ isError := true,
         args := [.text (sym (js "Error parsing JSON:")), .thrown e, .text (sym line)] }] := by
  simp [lineReports, processLines, hb, hp, addStreamItem_invalidJsonItem, blankPage]

theorem lineReports_rendered (parse : JSString → Except Thrown JSON) (line : JSString)
    (value : JSON) (hb : trim line ≠ []) (hp : parse line = .ok value)
    (hr : rendersWithError value = false) : lineReports parse line = [] := by
  have h3 := addStreamItem_console value blankPage
  unfold rendersWithError at hr
  unfold lineReports
  simp only [processLines, hp, List.isEmpty_iff, hb, if_false]
  rcases hB : addStreamItem value blankPage with ⟨r, p⟩
  rw [hB] at hr h3
  cases r with
  | error e => simp at hr
  | ok u => simpa [blankPage] using h3

theorem lineCalls_of_rendered_lines (parse : JSString → Except Thrown JSON)
    (lines : List JSString) (values : List JSON)
    (hlines : List.Forall₂ (fun line value => newline ∉ line ∧ trim line ≠ [] ∧
      parse line = .ok value ∧ rendersWithError value = false) lines values) :
    (∀ line ∈ lines, newline ∉ line) ∧ lines.flatMap (lineCalls parse) = values := by
  induction hlines with
  | nil => simp
  | cons hd _ ih =>
    constructor
    · intro line hl
      rcases List.mem_cons.mp hl with rfl | hl
      · exact hd.1
      · exact ih.1 line hl
    · rw [List.flatMap_cons, lineCalls_rendered parse _ _ hd.2.1 hd.2.2.1 hd.2.2.2, ih.2]
      rfl

theorem lineReports_of_rendered_lines (parse : JSString → Except Thrown JSON)
    (lines : List JSString) (values : List JSON)
    (hlines : List.Forall₂ (fun line value => newline ∉ line ∧ trim line ≠ [] ∧
      parse line = .ok value ∧ rendersWithError value = false) lines values) :
    lines.flatMap (lineReports parse) = [] := by
  induction hlines with
  | nil => simp
  | cons hd _ ih =>
    rw [List.flatMap_cons, lineReports_rendered parse _ _ hd.2.1 hd.2.2.1 hd.2.2.2, ih]
    rfl

/-! ## Lemmas on the read loop -/

theorem processStream_chunk (parse : JSString → Except Thrown JSON) (c : JSString)
    (rest : List ReadResult) (st : StreamState) :
    processStream parse (.chunk c :: rest) st =
      processStream parse rest
        { buffer := (split (st.buffer ++ c)).getLastD [],
          extracted := st.extracted ++ (split (st.buffer ++ c)).dropLast,
          page := (processLines parse (split (st.buffer ++ c)).dropLast st.page).2 } := by
  rw [processStream]
  have h := processLines_ok parse (split (st.buffer ++ c)).dropLast st.page
  split
  · rename_i heq
    rw [heq]
  · rename_i heq
    rw [heq] at h
    cases h

/-- The state after a run of chunks is the one reached by the whole text of the
run delivered at once. -/
theorem processStream_chunks (parse : JSString → Except Thrown JSON) (cs : List JSString)
    (rest : List ReadResult) (st : StreamState) (hb : newline ∉ st.buffer) :
    processStream parse (cs.map ReadResult.chunk ++ rest) st =
      processStream parse rest
        { buffer := (split (st.buffer ++ cs.flatten)).getLastD [],
          extracted := st.extracted ++ (split (st.buffer ++ cs.flatten)).dropLast,
          page := (processLines parse (split (st.buffer ++ cs.flatten)).dropLast st.page).2 } := by
  induction cs generalizing st with
  | nil =>
    simp [split_of_no_newline _ hb, processLines]
  | cons c cs ih =>
    rw [List.map_cons, List.cons_append, processStream_chunk, ih]
    · have hne : split ((split (st.buffer ++ c)).getLastD [] ++ cs.flatten) ≠ [] := split_ne_nil _
      have key := split_append (st.buffer ++ c) cs.flatten
      simp only [List.flatten_cons, ← List.append_assoc]
      rw [key, getLastD_append_of_ne_nil _ _ _ hne, List.dropLast_append_of_ne_nil _ hne,
        processLines_append]
      simp
    · exact newline_not_mem_split _ _ (getLastD_mem_split _)

theorem onResponse_chunks (parse : JSString → Except Thrown JSON) (status : Nat)
    (statusText : JSString) (json : Except Thrown JSON) (cs : List JSString)
    (rest : List ReadResult) (page : Page) :
    onResponse parse ⟨status, statusText, some (cs.map ReadResult.chunk ++ rest), json⟩ page =
      onResponse parse ⟨status, statusText, some (ReadResult.chunk cs.flatten :: rest), json⟩
        page := by
  simp only [onResponse, Response.ok]
  split_ifs
  · rfl
  · have h1 := processStream_chunks parse cs rest
      { buffer := [], extracted := [],
        page := { status := text (js "Status: " ++ decimal status ++ js " " ++ statusText ++
                    js " - Stream connected"),
                  items := page.items, console := page.console, calls := page.calls,
                  readerObtained := true } } (by simp)
    have h2 := processStream_chunks parse [cs.flatten] rest
      { buffer := [], extracted := [],
        page := { status := text (js "Status: " ++ decimal status ++ js " " ++ statusText ++
                    js " - Stream connected"),
                  items := page.items, console := page.console, calls := page.calls,
                  readerObtained := true } } (by simp)
    simp only [List.map_cons, List.map_nil, List.flatten_cons, List.flatten_nil,
      List.append_nil, List.nil_append, List.cons_append] at h1 h2
    simp only [h1, h2]

/-- The arguments `addStreamItem` receives for a successful response whose body
ends: those of the pieces of the body text before its last line feed; the piece
after it is never parsed. -/
theorem handleStreamingResponse_calls (parse : JSString → Except Thrown JSON) (url : JSString)
    (options : RequestInit) (status : Nat) (statusText : JSString)
    (json : Except Thrown JSON) (chunks : List JSString)
    (hok : (200 ≤ status ∧ status ≤ 299)) :
    (handleStreamingResponse parse
        (fun _ _ => .ok ⟨status, statusText, some (chunks.map ReadResult.chunk ++ [.done]), json⟩)
        url options).calls =
      (split chunks.flatten).dropLast.flatMap (lineCalls parse) := by
  have h := processStream_chunks parse chunks [.done]
      { buffer := [], extracted := [],
        page := { status := text (js "Status: " ++ decimal status ++ js " " ++ statusText ++
                    js " - Stream connected"),
                  items := [], console := [], calls := [],
                  readerObtained := true } } (by simp)
  simp only [handleStreamingResponse, onResponse, Response.ok, hok, decide_True, Bool.and_self,
    Bool.not_true, h]
  simp [processStream, processLines_calls]

theorem handleStreamingResponse_console (parse : JSString → Except Thrown JSON)
    (url : JSString) (options : RequestInit) (status : Nat) (statusText : JSString)
    (json : Except Thrown JSON) (chunks : List JSString)
    (hok : (200 ≤ status ∧ status ≤ 299)) :
    (handleStreamingResponse parse
        (fun _ _ => .ok ⟨status, statusText, some (chunks.map ReadResult.chunk ++ [.done]), json⟩)
        url options).console =
      (split chunks.flatten).dropLast.flatMap (lineReports parse) := by
  have h := processStream_chunks parse chunks [.done]
      { buffer := [], extracted := [],
        page := { status := text (js "Status: " ++ decimal status ++ js " " ++ statusText ++
                    js " - Stream connected"),
                  items := [], console := [], calls := [],
                  readerObtained := true } } (by simp)
  simp only [handleStreamingResponse, onResponse, Response.ok, hok, decide_True, Bool.and_self,
    Bool.not_true, h]
  simp [processStream, processLines_console]

/-! ## The streaming handler: chunk boundaries, conservation, transport errors -/

/-- C1. Chunk-boundary invariance: two ways of cutting the same body text into
chunks make `handleStreamingResponse` pass the same sequence of arguments to
`addStreamItem`, and each gives the sequence of the body delivered as one
chunk, whatever follows the chunks (`done`, a failure, or nothing yet). -/
theorem chunk_boundary_invariance (parse : JSString → Except Thrown JSON) (url : JSString)
    (options : RequestInit) (status : Nat) (statusText : JSString)
    (json : Except Thrown JSON) (cs1 cs2 : List JSString) (rest : List ReadResult)
    (h : cs1.flatten = cs2.flatten) :
    (handleStreamingResponse parse
        (fun _ _ => .ok ⟨status, statusText, some (cs1.map ReadResult.chunk ++ rest), json⟩)
        url options).calls =
      (handleStreamingResponse parse
        (fun _ _ => .ok ⟨status, statusText, some (cs2.map ReadResult.chunk ++ rest), json⟩)
        url options).calls ∧
    (handleStreamingResponse parse
        (fun _ _ => .ok ⟨status, statusText, some (cs1.map ReadResult.chunk ++ rest), json⟩)
        url options).calls =
      (handleStreamingResponse parse
        (fun _ _ => .ok ⟨status, statusText, some (ReadResult.chunk cs1.flatten :: rest), json⟩)
        url options).calls := by
  unfold handleStreamingResponse
  simp only [onResponse_chunks parse status statusText json cs1,
    onResponse_chunks parse status statusText json cs2, h, and_self]

theorem chunk_boundary_invariance_witness :
    [js "\x7b\x7d\nnu", js "ll\n"].flatten = [js "\x7b\x7d", js "\n", js "null\n"].flatten ∧
    ((handleStreamingResponse JSON.parse
        (fun _ _ => .ok ⟨200, js "OK",
          some ([js "\x7b\x7d\nnu", js "ll\n"].map ReadResult.chunk ++ [.done]), .ok .null⟩)
        (js "/api/verify/batch") ⟨js "POST", [], none⟩).calls =
      (handleStreamingResponse JSON.parse
        (fun _ _ => .ok ⟨200, js "OK",
          some ([js "\x7b\x7d", js "\n", js "null\n"].map ReadResult.chunk ++ [.done]), .ok .null⟩)
        (js "/api/verify/batch") ⟨js "POST", [], none⟩).calls ∧
    (handleStreamingResponse JSON.parse
        (fun _ _ => .ok ⟨200, js "OK",
          some ([js "\x7b\x7d\nnu", js "ll\n"].map ReadResult.chunk ++ [.done]), .ok .null⟩)
        (js "/api/verify/batch") ⟨js "POST", [], none⟩).calls =
      (handleStreamingResponse JSON.parse
        (fun _ _ => .ok ⟨200, js "OK",
          some (ReadResult.chunk [js "\x7b\x7d\nnu", js "ll\n"].flatten :: [.done]), .ok .null⟩)
        (js "/api/verify/batch") ⟨js "POST", [], none⟩).calls) :=
  ⟨by decide, chunk_boundary_invariance JSON.parse (js "/api/verify/batch") ⟨js "POST", [], none⟩
    200 (js "OK") (.ok .null) [js "\x7b\x7d\nnu", js "ll\n"] [js "\x7b\x7d", js "\n", js "null\n"] [.done]
    (by decide)⟩

/-- C5. Conservation in the parse buffer: after any number of read iterations,
the extracted lines, each followed by a line feed, followed by the buffer are
exactly the chunks received so far; no extracted line and not the buffer
contains a line feed. -/
theorem buffer_conservation (parse : JSString → Except Thrown JSON) (chunks : List JSString)
    (page : Page) :
    ((processStream parse (chunks.map ReadResult.chunk)
        { buffer := [], extracted := [], page := page }).extracted.flatMap
          (fun line => line ++ [newline]) ++
      (processStream parse (chunks.map ReadResult.chunk)
        { buffer := [], extracted := [], page := page }).buffer = chunks.flatten) ∧
    (∀ line ∈ (processStream parse (chunks.map ReadResult.chunk)
        { buffer := [], extracted := [], page := page }).extracted, newline ∉ line) ∧
    newline ∉ (processStream parse (chunks.map ReadResult.chunk)
        { buffer := [], extracted := [], page := page }).buffer := by
  have h := processStream_chunks parse chunks [] { buffer := [], extracted := [], page := page }
    (by simp)
  simp only [List.append_nil, List.nil_append, processStream] at h
  rw [h]
  refine ⟨flatMap_split _, ?_, ?_⟩
  · intro line hl
    exact newline_not_mem_split _ line (List.mem_of_mem_dropLast hl)
  · exact newline_not_mem_split _ _ (getLastD_mem_split _)

/-- C6. A response whose status is not a success status: no `addStreamItem`
call, nothing appended, no reader obtained, and the status line reports the
error with the status code. -/
theorem non_success_status_reports_error (parse : JSString → Except Thrown JSON)
    (fetch : Fetch) (url : JSString) (options : RequestInit) (response : Response)
    (hf : fetch (sym url) options = .ok response) (hs : response.ok = false) :
    (handleStreamingResponse parse fetch url options).calls = [] ∧
    (handleStreamingResponse parse fetch url options).items = [] ∧
    (handleStreamingResponse parse fetch url options).readerObtained = false ∧
    (handleStreamingResponse parse fetch url options).status =
      text (js "Error: HTTP error! Status: " ++ decimal response.status) := by
  have e : js "Error: HTTP error! Status: " = js "Error: " ++ js "HTTP error! Status: " := by
    decide
  simp [handleStreamingResponse, hf, onResponse, hs, Thrown.messageText, text, e]

theorem non_success_status_reports_error_witness :
    (handleStreamingResponse JSON.parse
      (fun _ _ => .ok ⟨404, js "Not Found", some [.chunk (js "\x7b\"a\":1\x7d\n"), .done], .ok .null⟩)
      (js "http://localhost:5000/api/verify/batch") ⟨js "POST", [], none⟩).status =
      text (js "Error: HTTP error! Status: 404") :=
  (non_success_status_reports_error JSON.parse
    (fun _ _ => .ok ⟨404, js "Not Found", some [.chunk (js "\x7b\"a\":1\x7d\n"), .done], .ok .null⟩)
    (js "http://localhost:5000/api/verify/batch") ⟨js "POST", [], none⟩
    ⟨404, js "Not Found", some [.chunk (js "\x7b\"a\":1\x7d\n"), .done], .ok .null⟩ rfl
    (by decide)).2.2.2

/-! ## The streaming handler: end of stream and rendering failures -/

/-- C2. The body `{"a":1}\n{"b":2}` without final line feed, delivered as one
chunk and followed by `done`: only the first line reaches `addStreamItem`; the
second, valid JSON, stays in the buffer when the stream completes. -/
theorem unterminated_final_line_is_dropped :
    (handleStreamingResponse JSON.parse
      (fun _ _ => .ok ⟨200, js "OK", some [.chunk (js "\x7b\"a\":1\x7d\n\x7b\"b\":2\x7d"), .done], .ok .null⟩)
      (js "http://localhost:5000/api/verify/batch") ⟨js "POST", [], none⟩).calls =
      [.obj [(js "a", .num ⟨false, 1, 0⟩)]] ∧
    (handleStreamingResponse JSON.parse
      (fun _ _ => .ok ⟨200, js "OK", some [.chunk (js "\x7b\"a\":1\x7d\n\x7b\"b\":2\x7d"), .done], .ok .null⟩)
      (js "http://localhost:5000/api/verify/batch") ⟨js "POST", [], none⟩).status =
      text (js "Status: 200 OK - Stream connected - Stream completed") ∧
    (processStream JSON.parse [.chunk (js "\x7b\"a\":1\x7d\n\x7b\"b\":2\x7d"), .done]
      { buffer := [], extracted := [], page := blankPage }).buffer = js "\x7b\"b\":2\x7d" ∧
    JSON.parse (js "\x7b\"b\":2\x7d") = .ok (.obj [(js "b", .num ⟨false, 2, 0⟩)]) := by
  refine ⟨by rfl, by decide, by decide, by rfl⟩

/-- At the end of the stream the text after the last line feed of the body is
still in the buffer. -/
theorem final_fragment_stays_in_buffer (parse : JSString → Except Thrown JSON)
    (chunks : List JSString) (page : Page) :
    (processStream parse (chunks.map ReadResult.chunk ++ [.done])
        { buffer := [], extracted := [], page := page }).buffer =
      (split chunks.flatten).getLastD [] := by
  have h := processStream_chunks parse chunks [.done]
    { buffer := [], extracted := [], page := page } (by simp)
  rw [h]
  simp [processStream]

/-- C3. The body `null\n`, one valid JSON line: `addStreamItem` is called twice,
first with the parsed value `null`, on which it throws, then with the error
object for the line; the only item shown is the error item. -/
theorem null_line_is_reported_as_invalid :
    JSON.parse (js "null") = .ok .null ∧
    (handleStreamingResponse JSON.parse
      (fun _ _ => .ok ⟨200, js "OK", some [.chunk (js "null\n"), .done], .ok .null⟩)
      (js "http://localhost:5000/api/verify/batch") ⟨js "POST", [], none⟩).calls =
      [.null, invalidJsonItem (js "null")] ∧
    (handleStreamingResponse JSON.parse
      (fun _ _ => .ok ⟨200, js "OK", some [.chunk (js "null\n"), .done], .ok .null⟩)
      (js "http://localhost:5000/api/verify/batch") ⟨js "POST", [], none⟩).items =
      [{ classList := [sym (js "stream-item")], pre := invalidJsonItem (js "null") }] := by
  refine ⟨by rfl, by rfl, by rfl⟩

/-- A body of newline-terminated non-blank valid lines whose values
`addStreamItem` renders without throwing gives, however it is chunked, exactly
the calls with the parsed values in line order, and the buffer is empty at the
end of the stream. -/
theorem valid_lines_delivered_when_rendering_succeeds (parse : JSString → Except Thrown JSON)
    (url : JSString) (options : RequestInit) (status : Nat) (statusText : JSString)
    (json : Except Thrown JSON) (lines : List JSString) (values : List JSON)
    (chunks : List JSString) (page : Page) (hok : (200 ≤ status ∧ status ≤ 299))
    (hchunks : chunks.flatten = lines.flatMap (fun line => line ++ [newline]))
    (hlines : List.Forall₂ (fun line value => newline ∉ line ∧ trim line ≠ [] ∧
      parse line = .ok value ∧ rendersWithError value = false) lines values) :
    (handleStreamingResponse parse
        (fun _ _ => .ok ⟨status, statusText, some (chunks.map ReadResult.chunk ++ [.done]), json⟩)
        url options).calls = values ∧
    (processStream parse (chunks.map ReadResult.chunk ++ [.done])
        { buffer := [], extracted := [], page := page }).buffer = [] := by
  obtain ⟨hnl, hcalls⟩ := lineCalls_of_rendered_lines parse lines values hlines
  constructor
  · rw [handleStreamingResponse_calls parse url options status statusText json chunks hok,
      hchunks, split_terminated_lines lines hnl]
    simpa using hcalls
  · have h := processStream_chunks parse chunks [.done]
      { buffer := [], extracted := [], page := page } (by simp)
    rw [h]
    simp [processStream, hchunks, split_terminated_lines lines hnl]

/-- C4. The body `null\nx\n`, whose only malformed line is `x`: two error
reports are made, one for the valid line `null` and one for `x`, and the stream
completes. -/
theorem valid_null_line_adds_an_error_report :
    JSON.parse (js "null") = .ok .null ∧
    JSON.parse (js "x") = .error .syntaxError ∧
    (handleStreamingResponse JSON.parse
      (fun _ _ => .ok ⟨200, js "OK", some [.chunk (js "null\nx\n"), .done], .ok .null⟩)
      (js "http://localhost:5000/api/verify/batch") ⟨js "POST", [], none⟩).calls =
      [.null, invalidJsonItem (js "null"), invalidJsonItem (js "x")] ∧
    (handleStreamingResponse JSON.parse
      (fun _ _ => .ok ⟨200, js "OK", some [.chunk (js "null\nx\n"), .done], .ok .null⟩)
      (js "http://localhost:5000/api/verify/batch") ⟨js "POST", [], none⟩).console =
      [{ isError := true, args := [.text (sym (js "Error parsing JSON:")), .thrown .typeError,
          .text (sym (js "null"))] },
       { isError := true, args := [.text (sym (js "Error parsing JSON:")), .thrown .syntaxError,
          .text (sym (js "x"))] }] ∧
    (handleStreamingResponse JSON.parse
      (fun _ _ => .ok ⟨200, js "OK", some [.chunk (js "null\nx\n"), .done], .ok .null⟩)
      (js "http://localhost:5000/api/verify/batch") ⟨js "POST", [], none⟩).status =
      text (js "Status: 200 OK - Stream connected - Stream completed") := by
  refine ⟨by rfl, by rfl, by rfl, by rfl, by decide⟩

/-- One malformed line among lines whose values render without throwing: the
values before and after it are delivered in order, with one error object for
the malformed line between them and one report on the console, however the
body is chunked. -/
theorem malformed_line_does_not_stop_delivery (parse : JSString → Except Thrown JSON)
    (url : JSString) (options : RequestInit) (status : Nat) (statusText : JSString)
    (json : Except Thrown JSON) (before after : List JSString) (bad : JSString) (e : Thrown)
    (valuesBefore valuesAfter : List JSON) (chunks : List JSString)
    (hok : (200 ≤ status ∧ status ≤ 299))
    (hchunks : chunks.flatten =
      (before ++ bad :: after).flatMap (fun line => line ++ [newline]))
    (hbefore : List.Forall₂ (fun line value => newline ∉ line ∧ trim line ≠ [] ∧
      parse line = .ok value ∧ rendersWithError value = false) before valuesBefore)
    (hafter : List.Forall₂ (fun line value => newline ∉ line ∧ trim line ≠ [] ∧
      parse line = .ok value ∧ rendersWithError value = false) after valuesAfter)
    (hnl : newline ∉ bad) (hblank : trim bad ≠ []) (hbad : parse bad = .error e) :
    (handleStreamingResponse parse
        (fun _ _ => .ok ⟨status, statusText, some (chunks.map ReadResult.chunk ++ [.done]), json⟩)
        url options).calls = valuesBefore ++ invalidJsonItem bad :: valuesAfter ∧
    (handleStreamingResponse parse
        (fun _ _ => .ok ⟨status, statusText, some (chunks.map ReadResult.chunk ++ [.done]), json⟩)
        url options).console =
      [{ isError := true,
         args := [.text (sym (js "Error parsing JSON:")), .thrown e, .text (sym bad)] }] := by
  obtain ⟨hnl1, hcalls1⟩ := lineCalls_of_rendered_lines parse before valuesBefore hbefore
  obtain ⟨hnl2, hcalls2⟩ := lineCalls_of_rendered_lines parse after valuesAfter hafter
  have hall : ∀ line ∈ before ++ bad :: after, newline ∉ line := by
    intro line hl
    rcases List.mem_append.mp hl with h | h
    · exact hnl1 line h
    · rcases List.mem_cons.mp h with rfl | h
      · exact hnl
      · exact hnl2 line h
  constructor
  · rw [handleStreamingResponse_calls parse url options status statusText json chunks hok,
      hchunks, split_terminated_lines _ hall, List.dropLast_concat, List.flatMap_append,
      List.flatMap_cons, hcalls1, hcalls2, lineCalls_malformed parse bad e hblank hbad]
    rfl
  · rw [handleStreamingResponse_console parse url options status statusText json chunks hok,
      hchunks, split_terminated_lines _ hall, List.dropLast_concat, List.flatMap_append,
      List.flatMap_cons, lineReports_of_rendered_lines parse before valuesBefore hbefore,
      lineReports_of_rendered_lines parse after valuesAfter hafter,
      lineReports_malformed parse bad e hblank hbad]
    rfl

/-! ## Blank lines -/

/-- C8. A candidate line that is empty or all white space is skipped: the loop
leaves the page as it was (no `addStreamItem` call, no item, no report), and a
list of lines is processed as if the blank line were not in it. -/
theorem blank_line_is_skipped (parse : JSString → Except Thrown JSON)
    (before after : List JSString) (blank : JSString) (page : Page)
    (h : ∀ u ∈ blank, isWhiteSpace u = true) :
    processLines parse [blank] page = (.ok (), page) ∧
    processLines parse (before ++ blank :: after) page =
      processLines parse (before ++ after) page := by
  have hb : processLines parse [blank] page = (.ok (), page) := by
    simp [processLines, trim_eq_nil_of_all_whiteSpace blank h]
  refine ⟨hb, ?_⟩
  rw [processLines_append, processLines_append parse before after, processLines_cons]
  simp [processLines, trim_eq_nil_of_all_whiteSpace blank h]

theorem blank_line_is_skipped_witness :
    (∀ u ∈ js " \t", isWhiteSpace u = true) ∧
    (processLines JSON.parse [js " \t"] blankPage = (.ok (), blankPage) ∧
     processLines JSON.parse ([js "\x7b\x7d"] ++ js " \t" :: [js "[1]"]) blankPage =
      processLines JSON.parse ([js "\x7b\x7d"] ++ [js "[1]"]) blankPage) :=
  ⟨by decide, blank_line_is_skipped JSON.parse [js "\x7b\x7d"] [js "[1]"] (js " \t") blankPage
    (by decide)⟩

/-! ## test.js and node-test.js: the API functions -/

theorem run_bind {α β : Type} (m : Eff α) (f : α → Eff β) (t : List Effect) :
    (m >>= f) t = match m t with
      | (.returned a, t1) => f a t1
      | (.thrown e, t1) => (.thrown e, t1)
      | (.pending, t1) => (.pending, t1) := rfl

theorem run_pure {α : Type} (a : α) (t : List Effect) :
    (pure a : Eff α) t = (.returned a, t) := rfl

theorem nodeTest_getCategoryStatistics_eq :
    NodeTest.getCategoryStatistics = TestJs.getCategoryStatistics := rfl

theorem nodeTest_getVerificationStatus_eq :
    NodeTest.getVerificationStatus = TestJs.getVerificationStatus := rfl

theorem nodeTest_getAllBatchNames_eq :
    NodeTest.getAllBatchNames = TestJs.getAllBatchNames := rfl

theorem nodeTest_updateBatchName_eq :
    NodeTest.updateBatchName = TestJs.updateBatchName := rfl

/-- C7. With valid arguments and a response of non-success status, each of the
five API functions of test.js and of node-test.js is rejected with the error
`HTTP error <status>` and never touches the response body. -/
theorem http_error_rejects_api_call (fetch : Fetch) (response : Response)
    (jobId batchId newName emails : JSValue) (job batch : SymString)
    (hf : ∀ url options, fetch url options = .ok response) (hs : response.ok = false)
    (hjob : truthy jobId = true) (hjobText : jobId.bind JSON.toStr = some job)
    (hbatch : truthy batchId = true) (hbatchText : batchId.bind JSON.toStr = some batch)
    (hname : truthy newName = true)
    (hemails : isArray emails = true) (hlength : arrayLength emails ≠ 0) :
    failsWithHttpError (TestJs.getCategoryStatistics fetch []) response.status ∧
    failsWithHttpError (TestJs.getVerificationStatus fetch jobId []) response.status ∧
    failsWithHttpError (TestJs.verifyBatch fetch emails []) response.status ∧
    failsWithHttpError (TestJs.getAllBatchNames fetch []) response.status ∧
    failsWithHttpError (TestJs.updateBatchName fetch batchId newName []) response.status ∧
    failsWithHttpError (NodeTest.getCategoryStatistics fetch []) response.status ∧
    failsWithHttpError (NodeTest.getVerificationStatus fetch jobId []) response.status ∧
    failsWithHttpError (NodeTest.verifyBatch fetch emails []) response.status ∧
    failsWithHttpError (NodeTest.getAllBatchNames fetch []) response.status ∧
    failsWithHttpError (NodeTest.updateBatchName fetch batchId newName []) response.status := by
  have htruthy : truthy emails = true := by
    cases emails with
    | none => simp [isArray] at hemails
    | some v => cases v <;> simp_all [isArray, truthy]
  have h1 : failsWithHttpError (TestJs.getCategoryStatistics fetch []) response.status := by
    simp [failsWithHttpError, TestJs.getCategoryStatistics, Eff.tryCatch, run_bind, run_pure,
      awaitFetch, hf, checkOk, throwIf, getReader, listen, hs, Eff.emit, Eff.throw, consoleError, Effect.readsBody]
  have h2 : failsWithHttpError (TestJs.getVerificationStatus fetch jobId []) response.status := by
    cases jobId with
    | none => simp [truthy] at hjob
    | some v =>
      simp at hjobText
      simp [failsWithHttpError, TestJs.getVerificationStatus, Eff.tryCatch, run_bind, run_pure,
        awaitFetch, hf, checkOk, throwIf, getReader, listen, hs, Eff.emit, Eff.throw, consoleError, Effect.readsBody, hjob,
        template, hjobText]
  have h3 : failsWithHttpError (TestJs.verifyBatch fetch emails []) response.status := by
    simp [failsWithHttpError, TestJs.verifyBatch, Eff.tryCatch, run_bind, run_pure,
      awaitFetch, hf, checkOk, throwIf, getReader, listen, hs, Eff.emit, Eff.throw, consoleError, Effect.readsBody,
      htruthy, hemails, hlength]
  have h4 : failsWithHttpError (TestJs.getAllBatchNames fetch []) response.status := by
    simp [failsWithHttpError, TestJs.getAllBatchNames, Eff.tryCatch, run_bind, run_pure,
      awaitFetch, hf, checkOk, throwIf, getReader, listen, hs, Eff.emit, Eff.throw, consoleError, Effect.readsBody]
  have h5 : failsWithHttpError (TestJs.updateBatchName fetch batchId newName [])
      response.status := by
    cases batchId with
    | none => simp [truthy] at hbatch
    | some v =>
      simp at hbatchText
      simp [failsWithHttpError, TestJs.updateBatchName, Eff.tryCatch, run_bind, run_pure,
        awaitFetch, hf, checkOk, throwIf, getReader, listen, hs, Eff.emit, Eff.throw, consoleError, Effect.readsBody, hbatch,
        hname, template, hbatchText]
  have h8 : failsWithHttpError (NodeTest.verifyBatch fetch emails []) response.status := by
    simp [failsWithHttpError, NodeTest.verifyBatch, Eff.tryCatch, run_bind, run_pure,
      awaitFetch, hf, checkOk, throwIf, getReader, listen, hs, Eff.emit, Eff.throw, consoleError, Effect.readsBody,
      htruthy, hemails, hlength]
  rw [nodeTest_getCategoryStatistics_eq, nodeTest_getVerificationStatus_eq,
    nodeTest_getAllBatchNames_eq, nodeTest_updateBatchName_eq]
  exact ⟨h1, h2, h3, h4, h5, h1, h2, h8, h4, h5⟩

theorem http_error_rejects_api_call_witness :
    failsWithHttpError
      (TestJs.getVerificationStatus
        (fun _ _ => .ok ⟨404, js "NOT FOUND", some [.chunk (js "\x7b\x7d\n"), .done], .ok .null⟩)
        (some (.str (js "batch_1743908523_2ac47056"))) []) 404 ∧
    failsWithHttpError
      (NodeTest.verifyBatch
        (fun _ _ => .ok ⟨404, js "NOT FOUND", some [.chunk (js "\x7b\x7d\n"), .done], .ok .null⟩)
        (some (.arr [.str (js "test1@example.com")])) []) 404 :=
  have h := http_error_rejects_api_call
    (fun _ _ => .ok ⟨404, js "NOT FOUND", some [.chunk (js "\x7b\x7d\n"), .done], .ok .null⟩)
    ⟨404, js "NOT FOUND", some [.chunk (js "\x7b\x7d\n"), .done], .ok .null⟩
    (some (.str (js "batch_1743908523_2ac47056"))) (some (.str (js "batch_1743908523_2ac47056")))
    (some (.str (js "New Batch Name"))) (some (.arr [.str (js "test1@example.com")]))
    (sym (js "batch_1743908523_2ac47056")) (sym (js "batch_1743908523_2ac47056"))
    (fun _ _ => rfl) (by decide) (by decide) rfl (by decide) rfl (by decide) (by decide)
    (by decide)
  ⟨h.2.1, h.2.2.2.2.2.2.2.1⟩

theorem readLoop_chunks (cs : List JSString) (result : JSString) (t : List Effect) :
    ∃ t1, TestJs.readLoop (cs.map ReadResult.chunk ++ [.done]) result t =
      (.returned (result ++ cs.flatten), t1) := by
  induction cs generalizing result t with
  | nil => simp [TestJs.readLoop, run_bind, run_pure, Eff.emit]
  | cons c cs ih =>
    obtain ⟨t1, h1⟩ := ih (result ++ c)
      (t ++ [Effect.read] ++ [Effect.console { isError := false, args :=
        [.text (sym (js "Received batch verification chunk:")), .text (sym c)] }])
    refine ⟨t1, ?_⟩
    simp [TestJs.readLoop, run_bind, Eff.emit, consoleLog] at h1 ⊢
    exact h1

theorem bodyEvents_chunks (cs : List JSString) (result : JSString) (t : List Effect) :
    ∃ t1, NodeTest.bodyEvents (cs.map ReadResult.chunk ++ [.done]) result t =
      (.returned (result ++ cs.flatten), t1) := by
  induction cs generalizing result t with
  | nil => simp [NodeTest.bodyEvents, run_bind, run_pure, Eff.emit, consoleLog]
  | cons c cs ih =>
    obtain ⟨t1, h1⟩ := ih (result ++ c)
      (t ++ [Effect.console { isError := false, args :=
        [.text (sym (js "Received batch verification chunk:")), .text (sym c)] }])
    refine ⟨t1, ?_⟩
    simp [NodeTest.bodyEvents, run_bind, Eff.emit, consoleLog] at h1 ⊢
    exact h1

/-- C9. For a non-empty array of emails and a successful response whose body
arrives as finitely many text chunks, `verifyBatch` of test.js and of
node-test.js returns the concatenation of the chunks in arrival order. -/
theorem verifyBatch_returns_concatenated_chunks (fetch : Fetch) (response : Response)
    (emails : JSValue) (chunks : List JSString)
    (hf : ∀ url options, fetch url options = .ok response) (hs : response.ok = true)
    (hbody : response.body = some (chunks.map ReadResult.chunk ++ [.done]))
    (hemails : isArray emails = true) (hlength : arrayLength emails ≠ 0) :
    (TestJs.verifyBatch fetch emails []).1 = .returned chunks.flatten ∧
    (NodeTest.verifyBatch fetch emails []).1 = .returned chunks.flatten := by
  have htruthy : truthy emails = true := by
    cases emails with
    | none => simp [isArray] at hemails
    | some v => cases v <;> simp_all [isArray, truthy]
  constructor
  · obtain ⟨t1, h1⟩ := readLoop_chunks chunks []
      [Effect.fetch (sym (API_BASE_URL ++ js "/api/verify/batch"))
        { method := js "POST", headers := contentTypeAndAccept,
          body := some (.stringify (.obj (member (js "emails") emails))) }, Effect.getReader]
    simp [TestJs.verifyBatch, Eff.tryCatch, run_bind, run_pure, awaitFetch, hf, checkOk, throwIf, getReader, listen, hs,
      Eff.emit, Eff.throw, consoleLog, htruthy, hemails, hlength, hbody, h1]
  · obtain ⟨t1, h1⟩ := bodyEvents_chunks chunks []
      [Effect.fetch (sym (API_BASE_URL ++ js "/api/verify/batch"))
        { method := js "POST", headers := contentTypeAndAccept,
          body := some (.stringify (.obj (member (js "emails") emails))) },
        Effect.on (js "data"), Effect.on (js "end"), Effect.on (js "error")]
    simp [NodeTest.verifyBatch, Eff.tryCatch, run_bind, run_pure, awaitFetch, hf, checkOk, throwIf, getReader, listen, hs,
      Eff.emit, Eff.throw, consoleLog, htruthy, hemails, hlength, hbody, h1]

theorem js_append (a b : String) : js (a ++ b) = js a ++ js b := by
  simp [js, String.toList, List.flatMap_append]

theorem sampleChunks_flatten : sampleChunks.flatten = sampleComplete := by
  simp only [sampleChunks, sampleComplete, js_append, List.flatten_cons, List.flatten_nil,
    List.append_nil, List.append_assoc]

theorem verifyBatch_returns_concatenated_chunks_witness :
    sampleChunks.flatten = sampleComplete ∧
    ((TestJs.verifyBatch (fun _ _ => .ok sampleResponse) (some NodeTest.emailsToVerify) []).1 =
        .returned sampleChunks.flatten ∧
     (NodeTest.verifyBatch (fun _ _ => .ok sampleResponse) (some NodeTest.emailsToVerify) []).1 =
        .returned sampleChunks.flatten) :=
  ⟨sampleChunks_flatten,
    verifyBatch_returns_concatenated_chunks (fun _ _ => .ok sampleResponse) sampleResponse
      (some NodeTest.emailsToVerify) sampleChunks (fun _ _ => rfl) (by decide) rfl (by decide)
      (by decide)⟩

/-! ## Catch handlers -/

theorem quiet_pure {α : Type} (a : α) : Quiet (pure a : Eff α) := fun _ => rfl

theorem quiet_throw {α : Type} (e : Thrown) : Quiet (Eff.throw e : Eff α) := fun _ => rfl

theorem quiet_never {α : Type} : Quiet (Eff.never : Eff α) := fun _ => rfl

theorem quiet_emit (effect : Effect) (h : effect.caught = none) : Quiet (Eff.emit effect) := by
  intro trace
  simp [Eff.emit, List.filterMap_append, h]

theorem quiet_consoleLog (args : List LogArg) : Quiet (consoleLog args) :=
  quiet_emit _ rfl

theorem quiet_bind {α β : Type} (m : Eff α) (f : α → Eff β) (hm : Quiet m)
    (hf : ∀ a, Quiet (f a)) : Quiet (m >>= f) := by
  intro trace
  rw [run_bind]
  have h := hm trace
  split
  · rename_i a t1 heq
    rw [heq] at h
    rw [hf a t1, h]
  · rename_i e t1 heq
    rw [heq] at h
    exact h
  · rename_i t1 heq
    rw [heq] at h
    exact h

theorem quiet_ite {α : Type} (c : Prop) [Decidable c] (a b : Eff α) (ha : Quiet a)
    (hb : Quiet b) : Quiet (if c then a else b) := by
  split_ifs
  · exact ha
  · exact hb

theorem quiet_awaitFetch (fetch : Fetch) (url : SymString) (options : RequestInit) :
    Quiet (awaitFetch fetch url options) := by
  unfold awaitFetch
  refine quiet_bind _ _ (quiet_emit _ rfl) (fun _ => ?_)
  split
  · exact quiet_pure _
  · exact quiet_throw _

theorem quiet_awaitJson (response : Response) : Quiet (awaitJson response) := by
  unfold awaitJson
  refine quiet_bind _ _ (quiet_emit _ rfl) (fun _ => ?_)
  split
  · exact quiet_pure _
  · exact quiet_throw _

theorem quiet_template (value : JSValue) : Quiet (template value) := by
  unfold template
  split
  · exact quiet_pure _
  · split
    · exact quiet_pure _
    · exact quiet_throw _

theorem quiet_throwIf (condition : Bool) (error : Thrown) : Quiet (throwIf condition error) := by
  unfold throwIf
  exact quiet_ite _ _ _ (quiet_throw _) (quiet_pure _)

theorem quiet_checkOk (response : Response) : Quiet (checkOk response) :=
  quiet_throwIf _ _

theorem quiet_getReader (response : Response) : Quiet (getReader response) := by
  unfold getReader
  split
  · exact quiet_bind _ _ (quiet_emit _ rfl) (fun _ => quiet_pure _)
  · exact quiet_throw _

theorem quiet_listen (response : Response) : Quiet (listen response) := by
  unfold listen
  split
  · exact quiet_bind _ _ (quiet_emit _ rfl) (fun _ =>
      quiet_bind _ _ (quiet_emit _ rfl) (fun _ =>
        quiet_bind _ _ (quiet_emit _ rfl) (fun _ => quiet_pure _)))
  · exact quiet_throw _

theorem quiet_readLoop (reads : List ReadResult) (result : JSString) :
    Quiet (TestJs.readLoop reads result) := by
  induction reads generalizing result with
  | nil =>
    unfold TestJs.readLoop
    exact quiet_bind _ _ (quiet_emit _ rfl) (fun _ => quiet_never)
  | cons r rest ih =>
    cases r with
    | chunk c =>
      unfold TestJs.readLoop
      exact quiet_bind _ _ (quiet_emit _ rfl) (fun _ =>
        quiet_bind _ _ (quiet_consoleLog _) (fun _ => ih _))
    | done =>
      unfold TestJs.readLoop
      exact quiet_bind _ _ (quiet_emit _ rfl) (fun _ => quiet_pure _)
    | failed e =>
      unfold TestJs.readLoop
      exact quiet_bind _ _ (quiet_emit _ rfl) (fun _ => quiet_throw _)

theorem quiet_bodyEvents (events : List ReadResult) (result : JSString) :
    Quiet (NodeTest.bodyEvents events result) := by
  induction events generalizing result with
  | nil =>
    unfold NodeTest.bodyEvents
    exact quiet_never
  | cons r rest ih =>
    cases r with
    | chunk c =>
      unfold NodeTest.bodyEvents
      exact quiet_bind _ _ (quiet_consoleLog _) (fun _ => ih _)
    | done =>
      unfold NodeTest.bodyEvents
      exact quiet_bind _ _ (quiet_consoleLog _) (fun _ => quiet_pure _)
    | failed e =>
      unfold NodeTest.bodyEvents
      exact quiet_throw _

/-- A `try` whose handler logs the error and rethrows it: the error it logged is
the error of the outcome. -/
theorem tryCatch_rethrow {α : Type} (body : Eff α) (label : SymString) (hq : Quiet body) :
    rethrowsCaught (Eff.tryCatch body (fun error => do
        consoleError [.text label, .thrown error]
        Eff.throw error) []) := by
  intro e he
  have h := hq []
  unfold Eff.tryCatch at he ⊢
  split at he
  · rename_i e1 t1 heq
    rw [heq] at h
    simp [run_bind, consoleError, Eff.emit, Eff.throw, List.filterMap_append, h,
      Effect.caught] at he ⊢
    exact he.symm
  · rename_i other hne
    simp only [List.filterMap_nil] at h
    rw [h] at he
    cases he

theorem rethrows_getCategoryStatistics (fetch : Fetch) :
    rethrowsCaught (TestJs.getCategoryStatistics fetch []) := by
  unfold TestJs.getCategoryStatistics
  apply tryCatch_rethrow
  refine quiet_bind _ _ (quiet_awaitFetch _ _ _) (fun _ => ?_)
  refine quiet_bind _ _ (quiet_checkOk _) (fun _ => ?_)
  refine quiet_bind _ _ (quiet_awaitJson _) (fun _ => ?_)
  exact quiet_bind _ _ (quiet_consoleLog _) (fun _ => quiet_pure _)

theorem rethrows_getVerificationStatus (fetch : Fetch) (jobId : JSValue) :
    rethrowsCaught (TestJs.getVerificationStatus fetch jobId []) := by
  unfold TestJs.getVerificationStatus
  apply tryCatch_rethrow
  refine quiet_bind _ _ (quiet_throwIf _ _) (fun _ => ?_)
  refine quiet_bind _ _ (quiet_template _) (fun _ => ?_)
  refine quiet_bind _ _ (quiet_awaitFetch _ _ _) (fun _ => ?_)
  refine quiet_bind _ _ (quiet_checkOk _) (fun _ => ?_)
  refine quiet_bind _ _ (quiet_awaitJson _) (fun _ => ?_)
  exact quiet_bind _ _ (quiet_consoleLog _) (fun _ => quiet_pure _)

theorem rethrows_getAllBatchNames (fetch : Fetch) :
    rethrowsCaught (TestJs.getAllBatchNames fetch []) := by
  unfold TestJs.getAllBatchNames
  apply tryCatch_rethrow
  refine quiet_bind _ _ (quiet_awaitFetch _ _ _) (fun _ => ?_)
  refine quiet_bind _ _ (quiet_checkOk _) (fun _ => ?_)
  refine quiet_bind _ _ (quiet_awaitJson _) (fun _ => ?_)
  exact quiet_bind _ _ (quiet_consoleLog _) (fun _ => quiet_pure _)

theorem rethrows_updateBatchName (fetch : Fetch) (batchId newName : JSValue) :
    rethrowsCaught (TestJs.updateBatchName fetch batchId newName []) := by
  unfold TestJs.updateBatchName
  apply tryCatch_rethrow
  refine quiet_bind _ _ (quiet_throwIf _ _) (fun _ => ?_)
  refine quiet_bind _ _ (quiet_throwIf _ _) (fun _ => ?_)
  refine quiet_bind _ _ (quiet_template _) (fun _ => ?_)
  refine quiet_bind _ _ (quiet_awaitFetch _ _ _) (fun _ => ?_)
  refine quiet_bind _ _ (quiet_checkOk _) (fun _ => ?_)
  refine quiet_bind _ _ (quiet_awaitJson _) (fun _ => ?_)
  exact quiet_bind _ _ (quiet_consoleLog _) (fun _ => quiet_pure _)

theorem rethrows_verifyBatch (fetch : Fetch) (emails : JSValue) :
    rethrowsCaught (TestJs.verifyBatch fetch emails []) := by
  unfold TestJs.verifyBatch
  apply tryCatch_rethrow
  refine quiet_bind _ _ (quiet_throwIf _ _) (fun _ => ?_)
  refine quiet_bind _ _ (quiet_awaitFetch _ _ _) (fun _ => ?_)
  refine quiet_bind _ _ (quiet_checkOk _) (fun _ => ?_)
  refine quiet_bind _ _ (quiet_getReader _) (fun _ => ?_)
  refine quiet_bind _ _ (quiet_readLoop _ _) (fun _ => ?_)
  exact quiet_bind _ _ (quiet_consoleLog _) (fun _ => quiet_pure _)

theorem rethrows_nodeTest_verifyBatch (fetch : Fetch) (emails : JSValue) :
    rethrowsCaught (NodeTest.verifyBatch fetch emails []) := by
  unfold NodeTest.verifyBatch
  have hq : Quiet (do
      throwIf (!truthy emails || !isArray emails || arrayLength emails == 0)
        (.error (js "Valid email array is required"))
      let response ← awaitFetch fetch (sym (API_BASE_URL ++ js "/api/verify/batch"))
        { method := js "POST", headers := contentTypeAndAccept,
          body := some (.stringify (.obj (member (js "emails") emails))) }
      checkOk response
      listen response : Eff (List ReadResult)) := by
    refine quiet_bind _ _ (quiet_throwIf _ _) (fun _ => ?_)
    refine quiet_bind _ _ (quiet_awaitFetch _ _ _) (fun _ => ?_)
    exact quiet_bind _ _ (quiet_checkOk _) (fun _ => quiet_listen _)
  have h := tryCatch_rethrow _ (sym (js "Failed to verify batch:")) hq
  intro e he
  rw [run_bind] at he ⊢
  split at he
  · rename_i events t1 heq
    rw [heq] at h
    rw [quiet_bodyEvents events [] t1] at he
    have := h e he
    cases this
  · rename_i e1 t1 heq
    rw [heq] at h
    have h2 := h e he
    simpa using h2
  · rename_i t1 heq
    rw [heq] at h
    have h2 := h e he
    simp at h2

theorem tryCatch_log_only (body : Eff Unit) (args : Thrown → List LogArg)
    (trace : List Effect) :
    (Eff.tryCatch body (fun error => consoleError (args error)) trace).1 = .returned () ∨
      (Eff.tryCatch body (fun error => consoleError (args error)) trace).1 = .pending := by
  unfold Eff.tryCatch
  rcases h : body trace with ⟨outcome, t1⟩
  cases outcome <;> simp [consoleError, Eff.emit]

/-- The handler of `runTests` logs the error and returns: `runTests` is never
rejected. -/
theorem runTests_never_rejected (fetch : Fetch) (now : JSString) (trace : List Effect) :
    (NodeTest.runTests fetch now trace).1 = .returned () ∨
      (NodeTest.runTests fetch now trace).1 = .pending := by
  unfold NodeTest.runTests
  exact tryCatch_log_only _ _ trace

/-- C10 as stated fails. In node-test.js, with a server answering 500,
`runTests` catches the error `HTTP error 500`, logs it and completes normally;
in test-api.js the loop of `processStream` catches the SyntaxError of the line
`x` and goes on. -/
theorem catch_handlers_that_do_not_rethrow :
    ¬ rethrowsCaught
      (NodeTest.runTests (fun _ _ => .ok ⟨500, js "INTERNAL SERVER ERROR", none, .ok .null⟩)
        (js "2025-04-16T21:51:00.723Z") []) ∧
    (NodeTest.runTests (fun _ _ => .ok ⟨500, js "INTERNAL SERVER ERROR", none, .ok .null⟩)
        (js "2025-04-16T21:51:00.723Z") []).1 = .returned () ∧
    JSON.parse (js "x") = .error .syntaxError ∧
    (processLines JSON.parse [js "x"] blankPage).1 = .ok () := by
  refine ⟨?_, by rfl, by rfl, by rfl⟩
  intro h
  have h1 := h (.error (js "HTTP error 500")) (by decide)
  have h2 : (NodeTest.runTests
      (fun _ _ => .ok ⟨500, js "INTERNAL SERVER ERROR", none, .ok .null⟩)
      (js "2025-04-16T21:51:00.723Z") []).1 = .returned () := by rfl
  rw [h2] at h1
  cases h1

/-- A handler that logs the error with a label and rethrows it. -/
theorem tryCatch_logsAndRethrows {α : Type} (block : Eff α) (label : JSString) :
    logsAndRethrows (Eff.tryCatch block (fun error => do
      consoleError [.text (sym label), .thrown error]
      Eff.throw error)) block label := by
  intro trace
  unfold Eff.tryCatch
  rcases h : block trace with ⟨outcome, t1⟩
  cases outcome <;> simp [run_bind, consoleError, Eff.emit, Eff.throw, caughtEntry]

/-- A handler that logs the error with a label and returns. -/
theorem tryCatch_logsAndReturns (block : Eff Unit) (label : JSString) :
    logsAndReturns (Eff.tryCatch block (fun error =>
      consoleError [.text (sym label), .thrown error])) block label := by
  intro trace
  unfold Eff.tryCatch
  rcases h : block trace with ⟨outcome, t1⟩
  cases outcome <;> simp [consoleError, Eff.emit, caughtEntry]

/-- The `catch` of `verifyBatch` of node-test.js covers the block up to the
registration of the listeners; what the listeners do afterwards is outside it. -/
theorem nodeTest_verifyBatch_catch (fetch : Fetch) (emails : JSValue) (trace : List Effect) :
    NodeTest.verifyBatch fetch emails trace =
      match NodeTest.verifyBatch.tryBlock fetch emails trace with
      | (.thrown error, trace1) =>
        (.thrown error, trace1 ++ [caughtEntry (js "Failed to verify batch:") error])
      | (.returned events, trace1) => NodeTest.bodyEvents events [] trace1
      | (.pending, trace1) => (.pending, trace1) := by
  have h := tryCatch_logsAndRethrows (NodeTest.verifyBatch.tryBlock fetch emails)
    (js "Failed to verify batch:") trace
  change (Eff.tryCatch (NodeTest.verifyBatch.tryBlock fetch emails) _ >>=
    fun events => NodeTest.bodyEvents events []) trace = _
  rw [run_bind, h]
  rcases NodeTest.verifyBatch.tryBlock fetch emails trace with ⟨outcome, t1⟩
  cases outcome <;> rfl

/-- The `catch` inside the line loop after a line `JSON.parse` rejects: the
error is logged, the error object is shown, and the loop goes on. -/
theorem processLines_parse_error (parse : JSString → Except Thrown JSON) (line : JSString)
    (rest : List JSString) (page : Page) (e : Thrown) (hb : trim line ≠ [])
    (hp : parse line = .error e) :
    processLines parse (line :: rest) page =
      processLines parse rest
        { page with
          console := page.console ++
            [{ isError := true,
               args := [.text (sym (js "Error parsing JSON:")), .thrown e, .text (sym line)] }],
          calls := page.calls ++ [invalidJsonItem line],
          items := page.items ++
            [{ classList := [sym (js "stream-item")], pre := invalidJsonItem line }] } := by
  rw [processLines]
  simp [hb, hp, addStreamItem_invalidJsonItem]

/-- The `catch` inside the line loop after `addStreamItem` threw on the parsed
value: the error is logged, the error object is shown, and the loop goes on. -/
theorem processLines_render_error (parse : JSString → Except Thrown JSON) (line : JSString)
    (rest : List JSString) (page page1 : Page) (value : JSON) (e : Thrown)
    (hb : trim line ≠ []) (hp : parse line = .ok value)
    (hr : addStreamItem value page = (.error e, page1)) :
    processLines parse (line :: rest) page =
      processLines parse rest
        { page1 with
          console := page1.console ++
            [{ isError := true,
               args := [.text (sym (js "Error parsing JSON:")), .thrown e, .text (sym line)] }],
          calls := page1.calls ++ [invalidJsonItem line],
          items := page1.items ++
            [{ classList := [sym (js "stream-item")], pre := invalidJsonItem line }] } := by
  rw [processLines]
  simp [hb, hp, hr, addStreamItem_invalidJsonItem]

/-- With arguments that pass the guards and a `fetch` that is rejected, each of
the ten API functions logs the rejection and is rejected with it. -/
theorem rejected_fetch_is_logged_and_rethrown (fetch : Fetch) (e : Thrown)
    (jobId batchId newName emails : JSValue) (job batch : SymString)
    (hf : ∀ url options, fetch url options = .error e)
    (hjob : truthy jobId = true) (hjobText : jobId.bind JSON.toStr = some job)
    (hbatch : truthy batchId = true) (hbatchText : batchId.bind JSON.toStr = some batch)
    (hname : truthy newName = true)
    (hemails : isArray emails = true) (hlength : arrayLength emails ≠ 0) :
    rejectedAfterLogging (TestJs.getCategoryStatistics fetch [])
      (js "Failed to get category statistics:") e ∧
    rejectedAfterLogging (TestJs.getVerificationStatus fetch jobId [])
      (js "Failed to get verification status:") e ∧
    rejectedAfterLogging (TestJs.verifyBatch fetch emails []) (js "Failed to verify batch:") e ∧
    rejectedAfterLogging (TestJs.getAllBatchNames fetch []) (js "Failed to get batch names:") e ∧
    rejectedAfterLogging (TestJs.updateBatchName fetch batchId newName [])
      (js "Failed to update batch name:") e ∧
    rejectedAfterLogging (NodeTest.getCategoryStatistics fetch [])
      (js "Failed to get category statistics:") e ∧
    rejectedAfterLogging (NodeTest.getVerificationStatus fetch jobId [])
      (js "Failed to get verification status:") e ∧
    rejectedAfterLogging (NodeTest.verifyBatch fetch emails []) (js "Failed to verify batch:") e ∧
    rejectedAfterLogging (NodeTest.getAllBatchNames fetch []) (js "Failed to get batch names:") e ∧
    rejectedAfterLogging (NodeTest.updateBatchName fetch batchId newName [])
      (js "Failed to update batch name:") e := by
  have htruthy : truthy emails = true := by
    cases emails with
    | none => simp [isArray] at hemails
    | some v => cases v <;> simp_all [isArray, truthy]
  have h1 : rejectedAfterLogging (TestJs.getCategoryStatistics fetch [])
      (js "Failed to get category statistics:") e := by
    simp [rejectedAfterLogging, caughtEntry, TestJs.getCategoryStatistics, Eff.tryCatch,
      run_bind, run_pure, awaitFetch, hf, Eff.emit, Eff.throw, consoleError]
  have h2 : rejectedAfterLogging (TestJs.getVerificationStatus fetch jobId [])
      (js "Failed to get verification status:") e := by
    cases jobId with
    | none => simp [truthy] at hjob
    | some v =>
      simp at hjobText
      simp [rejectedAfterLogging, caughtEntry, TestJs.getVerificationStatus, Eff.tryCatch,
        run_bind, run_pure, awaitFetch, hf, throwIf, Eff.emit, Eff.throw, consoleError, hjob,
        template, hjobText]
  have h3 : rejectedAfterLogging (TestJs.verifyBatch fetch emails [])
      (js "Failed to verify batch:") e := by
    simp [rejectedAfterLogging, caughtEntry, TestJs.verifyBatch, Eff.tryCatch, run_bind,
      run_pure, awaitFetch, hf, throwIf, Eff.emit, Eff.throw, consoleError, htruthy, hemails,
      hlength]
  have h4 : rejectedAfterLogging (TestJs.getAllBatchNames fetch [])
      (js "Failed to get batch names:") e := by
    simp [rejectedAfterLogging, caughtEntry, TestJs.getAllBatchNames, Eff.tryCatch, run_bind,
      run_pure, awaitFetch, hf, Eff.emit, Eff.throw, consoleError]
  have h5 : rejectedAfterLogging (TestJs.updateBatchName fetch batchId newName [])
      (js "Failed to update batch name:") e := by
    cases batchId with
    | none => simp [truthy] at hbatch
    | some v =>
      simp at hbatchText
      simp [rejectedAfterLogging, caughtEntry, TestJs.updateBatchName, Eff.tryCatch, run_bind,
        run_pure, awaitFetch, hf, throwIf, Eff.emit, Eff.throw, consoleError, hbatch, hname,
        template, hbatchText]
  have h8 : rejectedAfterLogging (NodeTest.verifyBatch fetch emails [])
      (js "Failed to verify batch:") e := by
    simp [rejectedAfterLogging, caughtEntry, NodeTest.verifyBatch, Eff.tryCatch, run_bind,
      run_pure, awaitFetch, hf, throwIf, Eff.emit, Eff.throw, consoleError, htruthy, hemails,
      hlength]
  rw [nodeTest_getCategoryStatistics_eq, nodeTest_getVerificationStatus_eq,
    nodeTest_getAllBatchNames_eq, nodeTest_updateBatchName_eq]
  exact ⟨h1, h2, h3, h4, h5, h1, h2, h8, h4, h5⟩

/-- C10, amended. In test.js and node-test.js the catch handler of each of the
five API functions logs the caught error and rethrows it: whenever the `try`
block of the function throws, the call logs that error with the label of the
function and is rejected with it, and a block that does not throw ends the call
as it ends itself; every error such a call logs is the error it is rejected
with; and with arguments that pass the guards a rejected `fetch` is logged and
rejects the call.  The other handlers do not rethrow: `runTests` logs the error
of its `try` block with `Test run failed:` and completes normally, so it is
never rejected; the `catch` in the line loop of `processStream` logs the error,
shows the error object and goes on with the next line, so no error leaves the
loop; and a rejected `fetch` or `read` ends
`handleStreamingResponse` with `Error:` and the message in the status line. -/
theorem api_catch_handlers_rethrow (fetch : Fetch) (jobId batchId newName emails : JSValue)
    (now : JSString) (parse : JSString → Except Thrown JSON) (line : JSString)
    (rest : List JSString) (page page1 : Page) (value : JSON) (url : JSString)
    (options : RequestInit) (e : Thrown) (reads : List ReadResult) (st : StreamState)
    (trace : List Effect) (lines : List JSString) :
    (logsAndRethrows (TestJs.getCategoryStatistics fetch)
        (TestJs.getCategoryStatistics.tryBlock fetch) (js "Failed to get category statistics:") ∧
      logsAndRethrows (TestJs.getVerificationStatus fetch jobId)
        (TestJs.getVerificationStatus.tryBlock fetch jobId)
        (js "Failed to get verification status:") ∧
      logsAndRethrows (TestJs.verifyBatch fetch emails) (TestJs.verifyBatch.tryBlock fetch emails)
        (js "Failed to verify batch:") ∧
      logsAndRethrows (TestJs.getAllBatchNames fetch) (TestJs.getAllBatchNames.tryBlock fetch)
        (js "Failed to get batch names:") ∧
      logsAndRethrows (TestJs.updateBatchName fetch batchId newName)
        (TestJs.updateBatchName.tryBlock fetch batchId newName)
        (js "Failed to update batch name:") ∧
      logsAndRethrows (NodeTest.getCategoryStatistics fetch)
        (NodeTest.getCategoryStatistics.tryBlock fetch)
        (js "Failed to get category statistics:") ∧
      logsAndRethrows (NodeTest.getVerificationStatus fetch jobId)
        (NodeTest.getVerificationStatus.tryBlock fetch jobId)
        (js "Failed to get verification status:") ∧
      (∀ trace, NodeTest.verifyBatch fetch emails trace =
        match NodeTest.verifyBatch.tryBlock fetch emails trace with
        | (.thrown error, trace1) =>
          (.thrown error, trace1 ++ [caughtEntry (js "Failed to verify batch:") error])
        | (.returned events, trace1) => NodeTest.bodyEvents events [] trace1
        | (.pending, trace1) => (.pending, trace1)) ∧
      logsAndRethrows (NodeTest.getAllBatchNames fetch) (NodeTest.getAllBatchNames.tryBlock fetch)
        (js "Failed to get batch names:") ∧
      logsAndRethrows (NodeTest.updateBatchName fetch batchId newName)
        (NodeTest.updateBatchName.tryBlock fetch batchId newName)
        (js "Failed to update batch name:")) ∧
    (rethrowsCaught (TestJs.getCategoryStatistics fetch []) ∧
      rethrowsCaught (TestJs.getVerificationStatus fetch jobId []) ∧
      rethrowsCaught (TestJs.verifyBatch fetch emails []) ∧
      rethrowsCaught (TestJs.getAllBatchNames fetch []) ∧
      rethrowsCaught (TestJs.updateBatchName fetch batchId newName []) ∧
      rethrowsCaught (NodeTest.getCategoryStatistics fetch []) ∧
      rethrowsCaught (NodeTest.getVerificationStatus fetch jobId []) ∧
      rethrowsCaught (NodeTest.verifyBatch fetch emails []) ∧
      rethrowsCaught (NodeTest.getAllBatchNames fetch []) ∧
      rethrowsCaught (NodeTest.updateBatchName fetch batchId newName [])) ∧
    (∀ job batch : SymString, (∀ url options, fetch url options = .error e) →
      truthy jobId = true → jobId.bind JSON.toStr = some job →
      truthy batchId = true → batchId.bind JSON.toStr = some batch →
      truthy newName = true → isArray emails = true → arrayLength emails ≠ 0 →
      rejectedAfterLogging (TestJs.getCategoryStatistics fetch [])
        (js "Failed to get category statistics:") e ∧
      rejectedAfterLogging (TestJs.getVerificationStatus fetch jobId [])
        (js "Failed to get verification status:") e ∧
      rejectedAfterLogging (TestJs.verifyBatch fetch emails []) (js "Failed to verify batch:") e ∧
      rejectedAfterLogging (TestJs.getAllBatchNames fetch [])
        (js "Failed to get batch names:") e ∧
      rejectedAfterLogging (TestJs.updateBatchName fetch batchId newName [])
        (js "Failed to update batch name:") e ∧
      rejectedAfterLogging (NodeTest.getCategoryStatistics fetch [])
        (js "Failed to get category statistics:") e ∧
      rejectedAfterLogging (NodeTest.getVerificationStatus fetch jobId [])
        (js "Failed to get verification status:") e ∧
      rejectedAfterLogging (NodeTest.verifyBatch fetch emails [])
        (js "Failed to verify batch:") e ∧
      rejectedAfterLogging (NodeTest.getAllBatchNames fetch [])
        (js "Failed to get batch names:") e ∧
      rejectedAfterLogging (NodeTest.updateBatchName fetch batchId newName [])
        (js "Failed to update batch name:") e) ∧
    logsAndReturns (NodeTest.runTests fetch now) (NodeTest.runTests.tryBlock fetch now)
      (js "Test run failed:") ∧
    ((NodeTest.runTests fetch now trace).1 = .returned () ∨
      (NodeTest.runTests fetch now trace).1 = .pending) ∧
    (processLines parse lines page).1 = .ok () ∧
    (trim line ≠ [] → parse line = .error e →
      processLines parse (line :: rest) page =
        processLines parse rest
          { page with
            console := page.console ++
              [{ isError := true,
                 args := [.text (sym (js "Error parsing JSON:")), .thrown e,
                   .text (sym line)] }],
            calls := page.calls ++ [invalidJsonItem line],
            items := page.items ++
              [{ classList := [sym (js "stream-item")], pre := invalidJsonItem line }] }) ∧
    (trim line ≠ [] → parse line = .ok value → addStreamItem value page = (.error e, page1) →
      processLines parse (line :: rest) page =
        processLines parse rest
          { page1 with
            console := page1.console ++
              [{ isError := true,
                 args := [.text (sym (js "Error parsing JSON:")), .thrown e,
                   .text (sym line)] }],
            calls := page1.calls ++ [invalidJsonItem line],
            items := page1.items ++
              [{ classList := [sym (js "stream-item")], pre := invalidJsonItem line }] }) ∧
    (handleStreamingResponse parse (fun _ _ => .error e) url options).status =
      text (js "Error: ") ++ e.messageText ∧
    (processStream parse (.failed e :: reads) st).page.status =
      text (js "Error: ") ++ e.messageText :=
  ⟨⟨tryCatch_logsAndRethrows _ _, tryCatch_logsAndRethrows _ _, tryCatch_logsAndRethrows _ _,
      tryCatch_logsAndRethrows _ _, tryCatch_logsAndRethrows _ _, tryCatch_logsAndRethrows _ _,
      tryCatch_logsAndRethrows _ _, nodeTest_verifyBatch_catch fetch emails,
      tryCatch_logsAndRethrows _ _, tryCatch_logsAndRethrows _ _⟩,
    ⟨rethrows_getCategoryStatistics fetch, rethrows_getVerificationStatus fetch jobId,
      rethrows_verifyBatch fetch emails, rethrows_getAllBatchNames fetch,
      rethrows_updateBatchName fetch batchId newName, rethrows_getCategoryStatistics fetch,
      rethrows_getVerificationStatus fetch jobId, rethrows_nodeTest_verifyBatch fetch emails,
      rethrows_getAllBatchNames fetch, rethrows_updateBatchName fetch batchId newName⟩,
    fun job batch hf hjob hjobText hbatch hbatchText hname hemails hlength =>
      rejected_fetch_is_logged_and_rethrown fetch e jobId batchId newName emails job batch hf
        hjob hjobText hbatch hbatchText hname hemails hlength,
    tryCatch_logsAndReturns _ _,
    runTests_never_rejected fetch now trace,
    processLines_ok parse lines page,
    processLines_parse_error parse line rest page e,
    processLines_render_error parse line rest page page1 value e,
    rfl, rfl⟩

theorem api_catch_handlers_rethrow_witness :
    rejectedAfterLogging
      (TestJs.getVerificationStatus (fun _ _ => .error .typeError)
        (some (.str (js "batch_1743908523_2ac47056"))) [])
      (js "Failed to get verification status:") .typeError ∧
    rejectedAfterLogging
      (NodeTest.verifyBatch (fun _ _ => .error .typeError)
        (some (.arr [.str (js "test1@example.com")])) [])
      (js "Failed to verify batch:") .typeError :=
  have h := (api_catch_handlers_rethrow (fun _ _ => .error .typeError)
    (some (.str (js "batch_1743908523_2ac47056"))) (some (.str (js "batch_1743908523_2ac47056")))
    (some (.str (js "New Batch Name"))) (some (.arr [.str (js "test1@example.com")]))
    [] JSON.parse [] [] blankPage blankPage .null [] ⟨[], [], none⟩ .typeError []
    ⟨[], [], blankPage⟩ [] []).2.2.1
    (sym (js "batch_1743908523_2ac47056")) (sym (js "batch_1743908523_2ac47056"))
    (fun _ _ => rfl) (by decide) rfl (by decide) rfl (by decide) (by decide) (by decide)
  ⟨h.2.1, h.2.2.2.2.2.2.2.1⟩


/-! ## Classes of the stream items -/

/-- A record whose `status` is `started` is appended with the class
`stream-start`. -/
theorem addStreamItem_started (members : List (JSString × JSON)) (page : Page)
    (h : lookupMember (js "status") members = some (.str (js "started"))) :
    addStreamItem (.obj members) page =
      (.ok (), { page with
        calls := page.calls ++ [.obj members],
        items := page.items ++ [{ classList := [sym (js "stream-item"), sym (js "stream-start")],
                                  pre := .obj members }] }) := by
  have hc : classListAdd (sym (js "stream-start")) [sym (js "stream-item")] =
      .ok [sym (js "stream-item"), sym (js "stream-start")] := by rfl
  simp [addStreamItem, JSON.getField, h, strictEqualsString, hc]

/-- A record whose `status` is `completed` is appended with the class
`stream-end`. -/
theorem addStreamItem_completed (members : List (JSString × JSON)) (page : Page)
    (h : lookupMember (js "status") members = some (.str (js "completed"))) :
    addStreamItem (.obj members) page =
      (.ok (), { page with
        calls := page.calls ++ [.obj members],
        items := page.items ++ [{ classList := [sym (js "stream-item"), sym (js "stream-end")],
                                  pre := .obj members }] }) := by
  have hc : classListAdd (sym (js "stream-end")) [sym (js "stream-item")] =
      .ok [sym (js "stream-item"), sym (js "stream-end")] := by rfl
  have hne : (js "completed" == js "started") = false := by decide
  simp [addStreamItem, JSON.getField, h, strictEqualsString, hc, hne]

/-- A record with an `email` and without a `status` member is appended with the
class `stream-result`, whatever its other members (its `category`) are. -/
theorem addStreamItem_email_without_status (members : List (JSString × JSON)) (page : Page)
    (hs : lookupMember (js "status") members = none)
    (he : truthy (lookupMember (js "email") members) = true) :
    addStreamItem (.obj members) page =
      (.ok (), { page with
        calls := page.calls ++ [.obj members],
        items := page.items ++ [{ classList := [sym (js "stream-item"), sym (js "stream-result")],
                                  pre := .obj members }] }) := by
  have hc : classListAdd (sym (js "stream-result")) [sym (js "stream-item")] =
      .ok [sym (js "stream-item"), sym (js "stream-result")] := by rfl
  have hn : truthy (none : JSValue) = false := rfl
  simp [addStreamItem, JSON.getField, hs, he, strictEqualsString, hc, hn]

set_option maxRecDepth 1000000 in
/-- C14. The five records of the sample run through the streaming handler: the
`started` record gets `stream-start` and the `completed` record `stream-end`,
but the three email records, whose `category` is `invalid`, `invalid` and
`risky`, get the class `stream-result`, not their category. -/
theorem sample_email_records_get_stream_result :
    (handleStreamingResponse JSON.parse (fun _ _ => .ok sampleResponse)
        (js "http://localhost:5000/api/verify/batch") ⟨js "POST", [], none⟩).items.map
        StreamItem.classList =
      [[sym (js "stream-item"), sym (js "stream-start")],
       [sym (js "stream-item"), sym (js "stream-result")],
       [sym (js "stream-item"), sym (js "stream-result")],
       [sym (js "stream-item"), sym (js "stream-result")],
       [sym (js "stream-item"), sym (js "stream-end")]] ∧
    (handleStreamingResponse JSON.parse (fun _ _ => .ok sampleResponse)
        (js "http://localhost:5000/api/verify/batch") ⟨js "POST", [], none⟩).items.map
        (fun item => item.pre.getField (js "category")) =
      [none, some (.str (js "invalid")), some (.str (js "invalid")), some (.str (js "risky")),
        none] := by
  refine ⟨by decide, by rfl⟩


/-! ## Cancellation -/

theorem processStream_failed (parse : JSString → Except Thrown JSON) (e : Thrown)
    (rest : List ReadResult) (st : StreamState) :
    processStream parse (.failed e :: rest) st =
      { st with page := { st.page with status := text (js "Error: ") ++ e.messageText } } := by
  simp [processStream]

/-- A read rejected after a run of chunks changes the status line and nothing
else of the page the chunks have left. -/
theorem handleStreamingResponse_rejected_read (parse : JSString → Except Thrown JSON)
    (url : JSString) (options : RequestInit) (status : Nat) (statusText : JSString)
    (json : Except Thrown JSON) (chunks : List JSString) (e : Thrown) (rest : List ReadResult)
    (hok : (200 ≤ status ∧ status ≤ 299)) :
    handleStreamingResponse parse
        (fun _ _ => .ok ⟨status, statusText,
          some (chunks.map ReadResult.chunk ++ .failed e :: rest), json⟩) url options =
      { handleStreamingResponse parse
          (fun _ _ => .ok ⟨status, statusText, some (chunks.map ReadResult.chunk), json⟩)
          url options with status := text (js "Error: ") ++ e.messageText } := by
  have h1 := processStream_chunks parse chunks (.failed e :: rest)
      { buffer := [], extracted := [],
        page := { status := text (js "Status: " ++ decimal status ++ js " " ++ statusText ++
                    js " - Stream connected"),
                  items := [], console := [], calls := [],
                  readerObtained := true } } (by simp)
  have h2 := processStream_chunks parse chunks []
      { buffer := [], extracted := [],
        page := { status := text (js "Status: " ++ decimal status ++ js " " ++ statusText ++
                    js " - Stream connected"),
                  items := [], console := [], calls := [],
                  readerObtained := true } } (by simp)
  rw [List.append_nil] at h2
  simp only [handleStreamingResponse, onResponse, Response.ok, hok, decide_True,
    Bool.and_self, Bool.not_true, h1, h2, processStream_failed]
  simp [processStream]

/-- The calls made for a run of chunks after which the stream is still open. -/
theorem handleStreamingResponse_open_calls (parse : JSString → Except Thrown JSON)
    (url : JSString) (options : RequestInit) (status : Nat) (statusText : JSString)
    (json : Except Thrown JSON) (chunks : List JSString)
    (hok : (200 ≤ status ∧ status ≤ 299)) :
    (handleStreamingResponse parse
        (fun _ _ => .ok ⟨status, statusText, some (chunks.map ReadResult.chunk), json⟩)
        url options).calls =
      (split chunks.flatten).dropLast.flatMap (lineCalls parse) := by
  have h2 := processStream_chunks parse chunks []
      { buffer := [], extracted := [],
        page := { status := text (js "Status: " ++ decimal status ++ js " " ++ statusText ++
                    js " - Stream connected"),
                  items := [], console := [], calls := [],
                  readerObtained := true } } (by simp)
  rw [List.append_nil] at h2
  simp only [handleStreamingResponse, onResponse, Response.ok, hok, decide_True,
    Bool.and_self, Bool.not_true, h2]
  simp [processStream, processLines_calls]

/-- C11. A caller cancels the streaming call in mid-stream by aborting the
signal it passed in `options`; the platform then rejects the pending `read`
with the abort reason (an AbortError unless the caller names another).  For a
successful response and any chunks received before that, the call ends with the
error outcome, `Error:` and the message of the abort reason in the status line,
and the rest of the page is as the chunks received had left it when the
cancellation was observed: no `addStreamItem` call is made for anything the
stream would have delivered afterwards.  The calls made are those of the
complete lines received, so when the chunks received carried M records exactly
these M have been delivered.  A call cancelled before the response arrives
delivers nothing and ends with the same error outcome. -/
theorem cancelled_stream_stops_delivery (parse : JSString → Except Thrown JSON)
    (url : JSString) (options : RequestInit) (status : Nat) (statusText : JSString)
    (json : Except Thrown JSON) (chunks : List JSString) (reason : Thrown)
    (rest : List ReadResult) (lines : List JSString) (values : List JSON)
    (hok : (200 ≤ status ∧ status ≤ 299)) :
    handleStreamingResponse parse
        (fun _ _ => .ok ⟨status, statusText,
          some (chunks.map ReadResult.chunk ++ .failed reason :: rest), json⟩) url options =
      { handleStreamingResponse parse
          (fun _ _ => .ok ⟨status, statusText, some (chunks.map ReadResult.chunk), json⟩)
          url options with status := text (js "Error: ") ++ reason.messageText } ∧
    (handleStreamingResponse parse
        (fun _ _ => .ok ⟨status, statusText,
          some (chunks.map ReadResult.chunk ++ .failed reason :: rest), json⟩)
        url options).status = text (js "Error: ") ++ reason.messageText ∧
    (handleStreamingResponse parse
        (fun _ _ => .ok ⟨status, statusText,
          some (chunks.map ReadResult.chunk ++ .failed reason :: rest), json⟩)
        url options).calls =
      (handleStreamingResponse parse
        (fun _ _ => .ok ⟨status, statusText, some (chunks.map ReadResult.chunk), json⟩)
        url options).calls ∧
    (handleStreamingResponse parse
        (fun _ _ => .ok ⟨status, statusText,
          some (chunks.map ReadResult.chunk ++ .failed reason :: rest), json⟩)
        url options).calls =
      (split chunks.flatten).dropLast.flatMap (lineCalls parse) ∧
    (chunks.flatten = lines.flatMap (fun line => line ++ [newline]) →
      List.Forall₂ (fun line value => newline ∉ line ∧ trim line ≠ [] ∧
        parse line = .ok value ∧ rendersWithError value = false) lines values →
      (handleStreamingResponse parse
        (fun _ _ => .ok ⟨status, statusText,
          some (chunks.map ReadResult.chunk ++ .failed reason :: rest), json⟩)
        url options).calls = values) ∧
    (handleStreamingResponse parse (fun _ _ => .error reason) url options).calls = [] ∧
    (handleStreamingResponse parse (fun _ _ => .error reason) url options).status =
      text (js "Error: ") ++ reason.messageText := by
  have h := handleStreamingResponse_rejected_read parse url options status statusText json
    chunks reason rest hok
  have hcalls := handleStreamingResponse_open_calls parse url options status statusText json
    chunks hok
  refine ⟨h, ?_, ?_, ?_, ?_, rfl, rfl⟩
  · rw [h]
  · rw [h]
  · rw [h]
    exact hcalls
  · intro hchunks hlines
    obtain ⟨hnl, hvalues⟩ := lineCalls_of_rendered_lines parse lines values hlines
    rw [h]
    show (handleStreamingResponse parse
        (fun _ _ => .ok ⟨status, statusText, some (chunks.map ReadResult.chunk), json⟩)
        url options).calls = values
    rw [hcalls, hchunks, split_terminated_lines lines hnl]
    simpa using hvalues

theorem cancelled_stream_stops_delivery_witness :
    (handleStreamingResponse JSON.parse
        (fun _ _ => .ok ⟨200, js "OK",
          some ([js "\x7b\"a\":1\x7d\n"].map ReadResult.chunk ++
            .failed .abortError :: [.chunk (js "\x7b\"b\":2\x7d\n"), .done]), .ok .null⟩)
        (js "http://localhost:5000/api/verify/batch") ⟨js "POST", [], none⟩).calls =
      [.obj [(js "a", .num ⟨false, 1, 0⟩)]] ∧
    (handleStreamingResponse JSON.parse
        (fun _ _ => .ok ⟨200, js "OK",
          some ([js "\x7b\"a\":1\x7d\n"].map ReadResult.chunk ++
            .failed .abortError :: [.chunk (js "\x7b\"b\":2\x7d\n"), .done]), .ok .null⟩)
        (js "http://localhost:5000/api/verify/batch") ⟨js "POST", [], none⟩).status =
      text (js "Error: ") ++ Thrown.abortError.messageText :=
  have h := cancelled_stream_stops_delivery JSON.parse
    (js "http://localhost:5000/api/verify/batch") ⟨js "POST", [], none⟩ 200 (js "OK") (.ok .null)
    [js "\x7b\"a\":1\x7d\n"] .abortError [.chunk (js "\x7b\"b\":2\x7d\n"), .done]
    [js "\x7b\"a\":1\x7d"] [.obj [(js "a", .num ⟨false, 1, 0⟩)]] (by decide)
  ⟨h.2.2.2.2.1 (by decide)
    (List.Forall₂.cons ⟨by decide, by decide, by rfl, by rfl⟩ List.Forall₂.nil), h.2.1⟩


/-! ## The argument check of `verifyBatch` -/

/-- A handler that logs and rethrows leaves the outcome of the `try` block as it is. -/
theorem tryCatch_rethrow_outcome {α : Type} (body : Eff α) (label : SymString)
    (t : List Effect) :
    (Eff.tryCatch body (fun error => do
        consoleError [.text label, .thrown error]
        Eff.throw error) t).1 = (body t).1 := by
  unfold Eff.tryCatch
  rcases h : body t with ⟨outcome, t1⟩
  cases outcome <;> simp [run_bind, consoleError, Eff.emit, Eff.throw]

/-- A handler that logs and rethrows sends no request. -/
theorem tryCatch_rethrow_requests {α : Type} (body : Eff α) (label : SymString)
    (t : List Effect) :
    (Eff.tryCatch body (fun error => do
        consoleError [.text label, .thrown error]
        Eff.throw error) t).2.filter Effect.isFetch = (body t).2.filter Effect.isFetch := by
  unfold Eff.tryCatch
  rcases h : body t with ⟨outcome, t1⟩
  cases outcome <;> simp [run_bind, consoleError, Eff.emit, Eff.throw, Effect.isFetch]

theorem readLoop_thrown (reads : List ReadResult) (result : JSString) (t : List Effect)
    (e : Thrown) (h : (TestJs.readLoop reads result t).1 = .thrown e) :
    ReadResult.failed e ∈ reads := by
  induction reads generalizing result t with
  | nil => simp [TestJs.readLoop, run_bind, Eff.emit, Eff.never] at h
  | cons r rest ih =>
    cases r with
    | chunk c =>
      simp only [TestJs.readLoop, run_bind, Eff.emit, consoleLog] at h
      exact List.mem_cons_of_mem _ (ih _ _ h)
    | done => simp [TestJs.readLoop, run_bind, run_pure, Eff.emit] at h
    | failed e1 =>
      simp [TestJs.readLoop, run_bind, Eff.emit, Eff.throw] at h
      simp [h]

theorem bodyEvents_thrown (events : List ReadResult) (result : JSString) (t : List Effect)
    (e : Thrown) (h : (NodeTest.bodyEvents events result t).1 = .thrown e) :
    ReadResult.failed e ∈ events := by
  induction events generalizing result t with
  | nil => simp [NodeTest.bodyEvents, Eff.never] at h
  | cons r rest ih =>
    cases r with
    | chunk c =>
      simp only [NodeTest.bodyEvents, run_bind, Eff.emit, consoleLog] at h
      exact List.mem_cons_of_mem _ (ih _ _ h)
    | done => simp [NodeTest.bodyEvents, run_bind, run_pure, Eff.emit, consoleLog] at h
    | failed e1 =>
      simp [NodeTest.bodyEvents, Eff.throw] at h
      simp [h]

theorem readLoop_requests (reads : List ReadResult) (result : JSString) (t : List Effect) :
    (TestJs.readLoop reads result t).2.filter Effect.isFetch = t.filter Effect.isFetch := by
  induction reads generalizing result t with
  | nil => simp [TestJs.readLoop, run_bind, Eff.emit, Eff.never, Effect.isFetch]
  | cons r rest ih =>
    cases r with
    | chunk c =>
      simp only [TestJs.readLoop, run_bind, Eff.emit, consoleLog]
      rw [ih]
      simp [Effect.isFetch]
    | done => simp [TestJs.readLoop, run_bind, run_pure, Eff.emit, Effect.isFetch]
    | failed e1 => simp [TestJs.readLoop, run_bind, Eff.emit, Eff.throw, Effect.isFetch]

theorem bodyEvents_requests (events : List ReadResult) (result : JSString) (t : List Effect) :
    (NodeTest.bodyEvents events result t).2.filter Effect.isFetch = t.filter Effect.isFetch := by
  induction events generalizing result t with
  | nil => simp [NodeTest.bodyEvents, Eff.never]
  | cons r rest ih =>
    cases r with
    | chunk c =>
      simp only [NodeTest.bodyEvents, run_bind, Eff.emit, consoleLog]
      rw [ih]
      simp [Effect.isFetch]
    | done => simp [NodeTest.bodyEvents, run_bind, run_pure, Eff.emit, consoleLog, Effect.isFetch]
    | failed e1 => simp [NodeTest.bodyEvents, Eff.throw]

theorem invalidEmails_eq_false (emails : JSValue) (h : invalidEmails emails = false) :
    ∃ x xs, emails = some (.arr (x :: xs)) := by
  cases emails with
  | none => simp [invalidEmails, truthy] at h
  | some v =>
    cases v with
    | arr ys =>
      cases ys with
      | nil => simp [invalidEmails, truthy, isArray, arrayLength] at h
      | cons x xs => exact ⟨x, xs, rfl⟩
    | _ => simp [invalidEmails, isArray] at h

theorem httpError_ne_emailArrayRequired (status : Nat) :
    Thrown.error (js "HTTP error " ++ decimal status) ≠ emailArrayRequired := by
  intro h
  have h1 : (js "HTTP error " ++ decimal status).head? = some 72 := rfl
  have h2 : (js "Valid email array is required").head? = some 86 := by decide
  unfold emailArrayRequired at h
  injection h with h
  rw [h, h2] at h1
  simp at h1
theorem tryCatch_rethrow_thrown {α : Type} (body : Eff α) (label : SymString)
    (t t1 : List Effect) (e : Thrown) (h : body t = (.thrown e, t1)) :
    Eff.tryCatch body (fun error => do
        consoleError [.text label, .thrown error]
        Eff.throw error) t =
      (.thrown e, t1 ++ [.console { isError := true, args := [.text label, .thrown e] }]) := by
  simp [Eff.tryCatch, h, run_bind, consoleError, Eff.emit, Eff.throw]

theorem testJs_verifyBatch_invalid (fetch : Fetch) (emails : JSValue)
    (h : invalidEmails emails = true) :
    (TestJs.verifyBatch fetch emails []).1 = .thrown emailArrayRequired ∧
    (TestJs.verifyBatch fetch emails []).2.filter Effect.isFetch = [] := by
  unfold invalidEmails at h
  unfold TestJs.verifyBatch
  rw [tryCatch_rethrow_thrown _ _ [] [] (.error (js "Valid email array is required"))]
  · exact ⟨rfl, rfl⟩
  · simp only [run_bind, throwIf, h, if_true, Eff.throw]

theorem nodeTest_verifyBatch_invalid (fetch : Fetch) (emails : JSValue)
    (h : invalidEmails emails = true) :
    (NodeTest.verifyBatch fetch emails []).1 = .thrown emailArrayRequired ∧
    (NodeTest.verifyBatch fetch emails []).2.filter Effect.isFetch = [] := by
  unfold invalidEmails at h
  unfold NodeTest.verifyBatch
  rw [run_bind, tryCatch_rethrow_thrown _ _ [] [] (.error (js "Valid email array is required"))]
  · exact ⟨rfl, rfl⟩
  · simp only [run_bind, throwIf, h, if_true, Eff.throw]

theorem testJs_verifyBatch_valid (fetch : Fetch) (x : JSON) (xs : List JSON) :
    (TestJs.verifyBatch fetch (some (.arr (x :: xs))) []).2.filter Effect.isFetch =
      [batchRequest (.arr (x :: xs))] ∧
    (neverFailsWith fetch emailArrayRequired →
      (TestJs.verifyBatch fetch (some (.arr (x :: xs))) []).1 ≠ .thrown emailArrayRequired) := by
  unfold TestJs.verifyBatch
  rw [tryCatch_rethrow_outcome, tryCatch_rethrow_requests]
  have hg : (!truthy (some (JSON.arr (x :: xs))) || !isArray (some (JSON.arr (x :: xs))) ||
      arrayLength (some (JSON.arr (x :: xs))) == 0) = false := by
    simp [truthy, isArray, arrayLength]
  simp only [run_bind, throwIf, hg, run_pure, awaitFetch, Eff.emit, List.nil_append, member,
    Bool.false_eq_true, if_false]
  cases hfe : fetch (sym (API_BASE_URL ++ js "/api/verify/batch"))
      { method := js "POST", headers := contentTypeAndAccept,
        body := some (.stringify (.obj [(js "emails", .arr (x :: xs))])) } with
  | error e =>
    simp only [Eff.throw]
    refine ⟨by simp [Effect.isFetch, batchRequest], fun hn heq => ?_⟩
    injection heq with heq
    exact hn.1 _ _ (heq ▸ hfe)
  | ok response =>
    simp only [run_pure, checkOk, throwIf]
    by_cases hok : response.ok = true
    · simp only [hok, Bool.not_true, Bool.false_eq_true, if_false, run_pure, getReader]
      cases hb : response.body with
      | none =>
        simp only [Eff.throw]
        exact ⟨by simp [Effect.isFetch, batchRequest], fun _ heq => by cases heq⟩
      | some reads =>
        simp only [run_bind, Eff.emit, run_pure]
        have hreq := readLoop_requests reads []
          ([Effect.fetch (sym (API_BASE_URL ++ js "/api/verify/batch"))
            { method := js "POST", headers := contentTypeAndAccept,
              body := some (.stringify (.obj [(js "emails", .arr (x :: xs))])) }] ++
            [Effect.getReader])
        have hthrown := readLoop_thrown reads []
          ([Effect.fetch (sym (API_BASE_URL ++ js "/api/verify/batch"))
            { method := js "POST", headers := contentTypeAndAccept,
              body := some (.stringify (.obj [(js "emails", .arr (x :: xs))])) }] ++
            [Effect.getReader])
        rcases hr : TestJs.readLoop reads []
          ([Effect.fetch (sym (API_BASE_URL ++ js "/api/verify/batch"))
            { method := js "POST", headers := contentTypeAndAccept,
              body := some (.stringify (.obj [(js "emails", .arr (x :: xs))])) }] ++
            [Effect.getReader]) with ⟨outcome, t1⟩
        rw [hr] at hreq hthrown
        simp only [List.filter_append] at hreq
        cases outcome with
        | returned result =>
          simp only [consoleLog, Eff.emit, run_bind, run_pure]
          refine ⟨?_, fun _ heq => by cases heq⟩
          simp [List.filter_append, hreq, Effect.isFetch, batchRequest]
        | thrown e =>
          refine ⟨by simpa [Effect.isFetch, batchRequest] using hreq, fun hn heq => ?_⟩
          injection heq with heq
          exact hn.2 _ _ response reads hfe hb (heq ▸ hthrown e rfl)
        | pending =>
          exact ⟨by simpa [Effect.isFetch, batchRequest] using hreq, fun _ heq => by cases heq⟩
    · simp only [Bool.not_eq_true] at hok
      simp only [hok, Bool.not_false, if_true, Eff.throw]
      refine ⟨by simp [Effect.isFetch, batchRequest], fun _ heq => ?_⟩
      injection heq with heq
      exact httpError_ne_emailArrayRequired _ heq
theorem tryCatch_returned {α : Type} (body : Eff α) (handler : Thrown → Eff α)
    (t t1 : List Effect) (a : α) (h : body t = (.returned a, t1)) :
    Eff.tryCatch body handler t = (.returned a, t1) := by
  simp [Eff.tryCatch, h]

theorem nodeTest_verifyBatch_valid (fetch : Fetch) (x : JSON) (xs : List JSON) :
    (NodeTest.verifyBatch fetch (some (.arr (x :: xs))) []).2.filter Effect.isFetch =
      [batchRequest (.arr (x :: xs))] ∧
    (neverFailsWith fetch emailArrayRequired →
      (NodeTest.verifyBatch fetch (some (.arr (x :: xs))) []).1 ≠
        .thrown emailArrayRequired) := by
  unfold NodeTest.verifyBatch
  have hg : (!truthy (some (JSON.arr (x :: xs))) || !isArray (some (JSON.arr (x :: xs))) ||
      arrayLength (some (JSON.arr (x :: xs))) == 0) = false := by
    simp [truthy, isArray, arrayLength]
  rw [run_bind]
  cases hfe : fetch (sym (API_BASE_URL ++ js "/api/verify/batch"))
      { method := js "POST", headers := contentTypeAndAccept,
        body := some (.stringify (.obj [(js "emails", .arr (x :: xs))])) } with
  | error e =>
    rw [tryCatch_rethrow_thrown _ _ [] [batchRequest (.arr (x :: xs))] e]
    · refine ⟨by simp [Effect.isFetch, batchRequest], fun hn heq => ?_⟩
      injection heq with heq
      exact hn.1 _ _ (heq ▸ hfe)
    · simp [run_bind, throwIf, hg, run_pure, awaitFetch, Eff.emit, member, hfe, Eff.throw,
        batchRequest]
  | ok response =>
    by_cases hok : response.ok = true
    · cases hb : response.body with
      | none =>
        rw [tryCatch_rethrow_thrown _ _ [] [batchRequest (.arr (x :: xs))] .typeError]
        · exact ⟨by simp [Effect.isFetch, batchRequest], fun _ heq => by cases heq⟩
        · simp [run_bind, throwIf, hg, run_pure, awaitFetch, Eff.emit, member, hfe, Eff.throw,
            batchRequest, checkOk, hok, listen, hb]
      | some events =>
        rw [tryCatch_returned _ _ []
          ([batchRequest (.arr (x :: xs))] ++ [Effect.on (js "data"), Effect.on (js "end"),
            Effect.on (js "error")]) events]
        · simp only
          have hreq := bodyEvents_requests events []
            ([batchRequest (.arr (x :: xs))] ++ [Effect.on (js "data"), Effect.on (js "end"),
              Effect.on (js "error")])
          have hthrown := bodyEvents_thrown events []
            ([batchRequest (.arr (x :: xs))] ++ [Effect.on (js "data"), Effect.on (js "end"),
              Effect.on (js "error")])
          refine ⟨?_, fun hn heq => ?_⟩
          · rw [hreq]
            simp [Effect.isFetch, batchRequest]
          · exact hn.2 _ _ response events hfe hb (hthrown _ heq)
        · simp [run_bind, throwIf, hg, run_pure, awaitFetch, Eff.emit, member, hfe, Eff.throw,
            batchRequest, checkOk, hok, listen, hb]
    · simp only [Bool.not_eq_true] at hok
      rw [tryCatch_rethrow_thrown _ _ [] [batchRequest (.arr (x :: xs))]
        (.error (js "HTTP error " ++ decimal response.status))]
      · refine ⟨by simp [Effect.isFetch, batchRequest], fun _ heq => ?_⟩
        injection heq with heq
        exact httpError_ne_emailArrayRequired _ heq
      · simp [run_bind, throwIf, hg, run_pure, awaitFetch, Eff.emit, member, hfe, Eff.throw,
          batchRequest, checkOk, hok]

/-- C12. `verifyBatch` of test.js and of node-test.js: when the argument is
falsy, not an array or an empty array, the call is rejected with
`Valid email array is required` and sends no request; for a non-empty array it
sends exactly one request, whose body is `JSON.stringify` of the object with
the array as `emails`; and, the platform itself never failing with that error,
the call is rejected with it if and only if the argument fails the check. -/
theorem verifyBatch_checks_its_argument (fetch : Fetch) (emails : JSValue) :
    (invalidEmails emails = true →
      ((TestJs.verifyBatch fetch emails []).1 = .thrown emailArrayRequired ∧
        (TestJs.verifyBatch fetch emails []).2.filter Effect.isFetch = []) ∧
      ((NodeTest.verifyBatch fetch emails []).1 = .thrown emailArrayRequired ∧
        (NodeTest.verifyBatch fetch emails []).2.filter Effect.isFetch = [])) ∧
    (invalidEmails emails = false →
      ∃ x xs, emails = some (.arr (x :: xs)) ∧
        (TestJs.verifyBatch fetch emails []).2.filter Effect.isFetch =
          [batchRequest (.arr (x :: xs))] ∧
        (NodeTest.verifyBatch fetch emails []).2.filter Effect.isFetch =
          [batchRequest (.arr (x :: xs))]) ∧
    (neverFailsWith fetch emailArrayRequired →
      ((TestJs.verifyBatch fetch emails []).1 = .thrown emailArrayRequired ↔
        invalidEmails emails = true) ∧
      ((NodeTest.verifyBatch fetch emails []).1 = .thrown emailArrayRequired ↔
        invalidEmails emails = true)) := by
  refine ⟨fun h => ⟨testJs_verifyBatch_invalid fetch emails h,
    nodeTest_verifyBatch_invalid fetch emails h⟩, fun h => ?_, fun hn => ⟨⟨fun h => ?_,
      fun h => (testJs_verifyBatch_invalid fetch emails h).1⟩, ⟨fun h => ?_,
      fun h => (nodeTest_verifyBatch_invalid fetch emails h).1⟩⟩⟩
  · obtain ⟨x, xs, rfl⟩ := invalidEmails_eq_false emails h
    exact ⟨x, xs, rfl, (testJs_verifyBatch_valid fetch x xs).1,
      (nodeTest_verifyBatch_valid fetch x xs).1⟩
  · cases hi : invalidEmails emails with
    | true => rfl
    | false =>
      obtain ⟨x, xs, rfl⟩ := invalidEmails_eq_false emails hi
      exact absurd h ((testJs_verifyBatch_valid fetch x xs).2 hn)
  · cases hi : invalidEmails emails with
    | true => rfl
    | false =>
      obtain ⟨x, xs, rfl⟩ := invalidEmails_eq_false emails hi
      exact absurd h ((nodeTest_verifyBatch_valid fetch x xs).2 hn)

theorem verifyBatch_checks_its_argument_witness :
    (TestJs.verifyBatch (fun _ _ => .ok sampleResponse) (some (.arr [])) []).1 =
      .thrown emailArrayRequired ∧
    (NodeTest.verifyBatch (fun _ _ => .ok sampleResponse) (some (.arr [])) []).2.filter
      Effect.isFetch = [] ∧
    (TestJs.verifyBatch (fun _ _ => .ok sampleResponse) (some NodeTest.emailsToVerify) []).1 ≠
      .thrown emailArrayRequired := by
  have h1 := (verifyBatch_checks_its_argument (fun _ _ => .ok sampleResponse)
    (some (.arr []))).1 (by decide)
  have h2 := (verifyBatch_checks_its_argument (fun _ _ => .ok sampleResponse)
    (some NodeTest.emailsToVerify)).2.2
  have hn : neverFailsWith (fun _ _ => .ok sampleResponse) emailArrayRequired := by
    constructor
    · intro url options h
      cases h
    · intro url options response reads hr hb
      injection hr with hr
      subst hr
      simp only [sampleResponse] at hb
      injection hb with hb
      subst hb
      simp
  refine ⟨h1.1.1, h1.2.2, fun h => ?_⟩
  have := (h2 hn).1.mp h
  revert this
  decide

/-! ## The endpoint forms -/

theorem appendToSection_ids (name : JSString) (added : List Textarea) (sections : List Section)
    (result : List Section) (h : appendToSection name added sections = some result) (x : JSString) :
    x ∈ (result.flatMap Section.textareas).map Textarea.id ↔
      x ∈ (sections.flatMap Section.textareas).map Textarea.id ∨ x ∈ added.map Textarea.id := by
  induction sections generalizing result with
  | nil => simp [appendToSection] at h
  | cons s rest ih =>
    unfold appendToSection at h
    split_ifs at h with hs
    · injection h with h
      subst h
      simp only [List.flatMap_cons, List.map_append, List.mem_append]
      tauto
    · cases hr : appendToSection name added rest with
      | none => simp [hr] at h
      | some tail =>
        simp [hr] at h
        subst h
        have := ih tail hr
        simp only [List.flatMap_cons, List.map_append, List.mem_append]
        rw [this]
        tauto

theorem addEndpoint_ids (e : Endpoint) (doc result : Document)
    (h : addEndpoint e doc = .ok result) (x : JSString) :
    x ∈ result.textareas.map Textarea.id ↔
      x ∈ doc.textareas.map Textarea.id ∨ (e.hasInput = true ∧ x = e.id ++ js "-input") := by
  unfold addEndpoint at h
  simp only at h
  split at h
  · rename_i sections hs
    injection h with h
    subst h
    have := appendToSection_ids _ _ _ _ hs x
    unfold Document.textareas
    simp only
    rw [this]
    by_cases hi : e.hasInput = true
    · simp [hi]
    · simp [hi]
  · cases h

theorem registerAll_ids (es : List Endpoint) (doc result : Document)
    (h : registerAll es doc = .ok result) (x : JSString) :
    x ∈ result.textareas.map Textarea.id ↔
      x ∈ doc.textareas.map Textarea.id ∨
        ∃ e ∈ es, e.hasInput = true ∧ x = e.id ++ js "-input" := by
  induction es generalizing doc with
  | nil =>
    simp only [registerAll] at h
    injection h with h
    subst h
    simp
  | cons e rest ih =>
    unfold registerAll at h
    cases ha : addEndpoint e doc with
    | error err => simp [ha] at h
    | ok doc1 =>
      simp only [ha] at h
      rw [ih doc1 h, addEndpoint_ids e doc doc1 ha]
      constructor
      · rintro ((h1 | ⟨h1, h2⟩) | ⟨e1, he1, h1, h2⟩)
        · exact Or.inl h1
        · exact Or.inr ⟨e, by simp, h1, h2⟩
        · exact Or.inr ⟨e1, by simp [he1], h1, h2⟩
      · rintro (h1 | ⟨e1, he1, h1, h2⟩)
        · exact Or.inl (Or.inl h1)
        · rcases List.mem_cons.mp he1 with rfl | he1
          · exact Or.inl (Or.inr ⟨h1, h2⟩)
          · exact Or.inr ⟨e1, he1, h1, h2⟩

theorem getTextarea_isSome (doc : Document) (x : JSString) :
    (doc.getTextarea x).isSome = true ↔ x ∈ doc.textareas.map Textarea.id := by
  unfold Document.getTextarea
  rw [List.find?_isSome]
  simp only [List.mem_map, beq_iff_eq]

theorem getTextarea_id (doc : Document) (x : JSString) (input : Textarea)
    (h : doc.getTextarea x = some input) : input.id = x := by
  unfold Document.getTextarea at h
  have := List.find?_some h
  simpa using this

/-- On a page whose endpoints have distinct ids, the element found for an
endpoint's input id exists exactly when `addEndpoint` made a textarea for that
endpoint, whatever was typed into the textareas since. -/
theorem getTextarea_of_registered (es : List Endpoint) (start built doc : Document)
    (e : Endpoint) (hstart : start.textareas = [])
    (hbuilt : registerAll es start = .ok built)
    (hids : (es.map Endpoint.id).Nodup) (he : e ∈ es)
    (hshape : doc.textareas.map Textarea.id = built.textareas.map Textarea.id) :
    (doc.getTextarea (e.id ++ js "-input")).isSome = e.hasInput := by
  have hiff : (doc.getTextarea (e.id ++ js "-input")).isSome = true ↔ e.hasInput = true := by
    rw [getTextarea_isSome, hshape, registerAll_ids es start built hbuilt, hstart]
    simp only [Document.textareas, List.map_nil, List.not_mem_nil, false_or]
    constructor
    · rintro ⟨e1, he1, h1, h2⟩
      have hid : e1.id = e.id := (List.append_cancel_right h2).symm
      have : e1 = e := by
        by_contra hne
        have := List.inj_on_of_nodup_map hids he1 he hid
        exact hne this
      rw [← this]
      exact h1
    · intro h
      exact ⟨e, he, h, rfl⟩
  cases h1 : (doc.getTextarea (e.id ++ js "-input")).isSome <;>
    cases h2 : e.hasInput <;> simp_all

theorem registerAll_pageEndpoints :
    registerAll pageEndpoints initialDocument = .ok loadedDocument := by
  rfl

/-- C13. On a page whose endpoints have distinct ids, for an endpoint with a
body the click handler reads the endpoint's textarea: when its text is not valid
JSON the click shows `Invalid JSON in request body` and issues no request and no
streaming call; when it is valid JSON the one request carries exactly that text
as body, the header `Content-Type: application/json`, the method of the
endpoint and the URL of base and path. -/
theorem click_with_body (parse : JSString → Except Thrown JSON) (fetch : PageFetch)
    (es : List Endpoint) (start built doc : Document) (e : Endpoint)
    (hstart : start.textareas = []) (hbuilt : registerAll es start = .ok built)
    (hids : (es.map Endpoint.id).Nodup) (he : e ∈ es)
    (hshape : doc.textareas.map Textarea.id = built.textareas.map Textarea.id)
    (hbody : truthy e.body = true) :
    ∃ input, doc.getTextarea (e.id ++ js "-input") = some input ∧
      input.id = e.id ++ js "-input" ∧
      (∀ err, parse input.value = .error err →
        onClick parse fetch e doc =
          { shown := [.error (text (js "Invalid JSON in request body"))], requests := [],
            stream := none }) ∧
      (∀ value, parse input.value = .ok value →
        (onClick parse fetch e doc).requests =
          [(doc.apiUrl ++ e.path,
            { method := e.method, headers := [(js "Content-Type", js "application/json")],
              body := some (.text input.value) })]) := by
  have hsome := getTextarea_of_registered es start built doc e hstart hbuilt hids he hshape
  have hyes : e.hasInput = true := by simp [Endpoint.hasInput, hbody]
  rw [hyes] at hsome
  cases hg : doc.getTextarea (e.id ++ js "-input") with
  | none => simp [hg] at hsome
  | some input =>
    refine ⟨input, rfl, getTextarea_id doc _ input hg, ?_, ?_⟩
    · intro err hp
      simp [onClick, clickOptions, hbody, hg, hp]
    · intro value hp
      simp only [onClick, clickOptions, clickUrl, hbody, hg, hp, if_true]
      split_ifs <;> rfl

theorem click_with_body_witness :
    onClick JSON.parse (fun _ _ => .error .typeError) verifyEmailEndpoint
        (loadedDocument.withValue (js "verifyEmail-input") (js "\x7b\"email\": ")) =
      { shown := [.error (text (js "Invalid JSON in request body"))], requests := [],
        stream := none } ∧
    (onClick JSON.parse (fun _ _ => .error .typeError) verifyEmailEndpoint
        loadedDocument).requests =
      [(js "http://localhost:5000" ++ js "/api/verify/email",
        { method := js "POST", headers := [(js "Content-Type", js "application/json")],
          body := some (.text (js "\x7b\n  \"email\": \"example@example.com\"\n\x7d")) })] := by
  constructor
  · obtain ⟨input, hg, _, hbad, _⟩ := click_with_body JSON.parse (fun _ _ => .error .typeError)
      pageEndpoints initialDocument loadedDocument
      (loadedDocument.withValue (js "verifyEmail-input") (js "\x7b\"email\": "))
      verifyEmailEndpoint rfl registerAll_pageEndpoints (by decide) (by simp [pageEndpoints])
      (by decide) (by decide)
    have hg1 : (loadedDocument.withValue (js "verifyEmail-input")
        (js "\x7b\"email\": ")).getTextarea (verifyEmailEndpoint.id ++ js "-input") =
        some ⟨js "verifyEmail-input", js "\x7b\"email\": "⟩ := by rfl
    rw [hg1] at hg
    injection hg with hg
    exact hbad .syntaxError (by rw [← hg]; rfl)
  · obtain ⟨input, hg, _, _, hgood⟩ := click_with_body JSON.parse (fun _ _ => .error .typeError)
      pageEndpoints initialDocument loadedDocument loadedDocument
      verifyEmailEndpoint rfl registerAll_pageEndpoints (by decide) (by simp [pageEndpoints])
      rfl (by decide)
    have hg1 : loadedDocument.getTextarea (verifyEmailEndpoint.id ++ js "-input") =
        some ⟨js "verifyEmail-input", js "\x7b\n  \"email\": \"example@example.com\"\n\x7d"⟩ := by
      rfl
    rw [hg1] at hg
    injection hg with hg
    have := hgood (.obj [(js "email", .str (js "example@example.com"))]) (by rw [← hg]; rfl)
    rw [this, ← hg]
    rfl

/-- C15. On a page whose endpoints have distinct ids, whatever was typed since:
the click handler takes the API base URL followed by the original path when the
endpoint has a body or its path has neither `?` nor `:` (no input was made),
and the API base URL followed by the current text of the endpoint's textarea
when it has no body and its path has `?` or `:`; every request of the click goes
to that URL, and the endpoint has a textarea exactly when it has a body or such
a path. -/
theorem click_url (parse : JSString → Except Thrown JSON) (fetch : PageFetch)
    (es : List Endpoint) (start built doc : Document) (e : Endpoint)
    (hstart : start.textareas = []) (hbuilt : registerAll es start = .ok built)
    (hids : (es.map Endpoint.id).Nodup) (he : e ∈ es)
    (hshape : doc.textareas.map Textarea.id = built.textareas.map Textarea.id) :
    (truthy e.body = true ∨ e.pathEditable = false →
      clickUrl e doc = doc.apiUrl ++ e.path) ∧
    (truthy e.body = false → e.pathEditable = true →
      ∃ input, doc.getTextarea (e.id ++ js "-input") = some input ∧
        input.id = e.id ++ js "-input" ∧ clickUrl e doc = doc.apiUrl ++ input.value) ∧
    (∀ request ∈ (onClick parse fetch e doc).requests, request.1 = clickUrl e doc) ∧
    (doc.getTextarea (e.id ++ js "-input")).isSome = (truthy e.body || e.pathEditable) := by
  have hsome := getTextarea_of_registered es start built doc e hstart hbuilt hids he hshape
  refine ⟨?_, ?_, ?_, hsome⟩
  · intro h
    unfold clickUrl
    cases hb : truthy e.body with
    | true => simp
    | false =>
      rcases h with h | h
      · rw [hb] at h
        cases h
      · have hno : e.hasInput = false := by simp [Endpoint.hasInput, hb, h]
        rw [hno] at hsome
        cases hg : doc.getTextarea (e.id ++ js "-input") with
        | none => simp
        | some input => simp [hg] at hsome
  · intro hb hp
    have hyes : e.hasInput = true := by simp [Endpoint.hasInput, hp]
    rw [hyes] at hsome
    cases hg : doc.getTextarea (e.id ++ js "-input") with
    | none => simp [hg] at hsome
    | some input =>
      exact ⟨input, rfl, getTextarea_id doc _ input hg, by simp [clickUrl, hb, hg]⟩
  · intro request hr
    unfold onClick at hr
    simp only at hr
    split at hr
    · simp at hr
    · split_ifs at hr
      · simp at hr
        rw [hr]
      · simp at hr
        rw [hr]

theorem click_url_witness :
    clickUrl emailHistoryEndpoint
        (loadedDocument.withValue (js "emailHistory-input")
          (js "/api/statistics/history/email?email=info@xos.ma")) =
      js "http://localhost:5000" ++ js "/api/statistics/history/email?email=info@xos.ma" ∧
    clickUrl jobStatusEndpoint
        (loadedDocument.withValue (js "emailHistory-input")
          (js "/api/statistics/history/email?email=info@xos.ma")) =
      js "http://localhost:5000" ++ js "/api/verify/status/my_job_123" := by
  have h1 := click_url JSON.parse (fun _ _ => .error .typeError) pageEndpoints initialDocument
    loadedDocument
    (loadedDocument.withValue (js "emailHistory-input")
      (js "/api/statistics/history/email?email=info@xos.ma"))
    emailHistoryEndpoint rfl registerAll_pageEndpoints (by decide) (by simp [pageEndpoints])
    (by decide)
  have h2 := click_url JSON.parse (fun _ _ => .error .typeError) pageEndpoints initialDocument
    loadedDocument
    (loadedDocument.withValue (js "emailHistory-input")
      (js "/api/statistics/history/email?email=info@xos.ma"))
    jobStatusEndpoint rfl registerAll_pageEndpoints (by decide) (by simp [pageEndpoints])
    (by decide)
  refine ⟨?_, h2.1 (Or.inr (by decide))⟩
  obtain ⟨input, hg, _, hurl⟩ := h1.2.1 (by decide) (by decide)
  have hg1 : (loadedDocument.withValue (js "emailHistory-input")
      (js "/api/statistics/history/email?email=info@xos.ma")).getTextarea
        (emailHistoryEndpoint.id ++ js "-input") =
      some ⟨js "emailHistory-input", js "/api/statistics/history/email?email=info@xos.ma"⟩ := by
    rfl
  rw [hg1] at hg
  injection hg with hg
  rw [hurl, ← hg]
  rfl

end EmailVerifier
